import Mathlib

/-!
Verification of the memory-bank state manager and hook normalization layer
of the obsidian-cli memory bank skill.

The development shallowly embeds the Python sources:
  scripts/obsidian_memory.py        (config store, slugify, note paths, vault executor)
  scripts/hook_common.py            (truncate, content_to_text, log_turn)
  scripts/codex_notify_hook.py      (Codex schema extractor and entry point)
  scripts/claude_notify_hook.py     (Claude schema extractor and entry point)
  scripts/cursor_notify_hook.py     (Cursor schema extractor, signature check, entry point)
  scripts/antigravity_notify_hook.py (Antigravity schema extractor and entry point)

Text is modelled as lists of characters, Python dictionaries as association
lists, JSON values as an inductive type, and the filesystem / subprocess
boundary as explicit inputs.  Machine words in the SHA-256 model are natural
numbers reduced modulo 2^32.
-/

/-- Python strings are modelled as lists of characters. -/
abbrev Str := List Char

/-- ASCII model of the character class a-z0-9 used by the slugify regex. -/
def isLowerAlnum (c : Char) : Bool :=
  (97 ≤ c.toNat && c.toNat ≤ 122) || (48 ≤ c.toNat && c.toNat ≤ 57)

/-- ASCII model of the Python regex class backslash-s (whitespace). -/
def isWs (c : Char) : Bool :=
  c.toNat = 32 || c.toNat = 9 || c.toNat = 10 || c.toNat = 13 || c.toNat = 11 || c.toNat = 12

/-- ASCII model of Python str.lower applied to one character. -/
def lowerChar (c : Char) : Char :=
  if 65 ≤ c.toNat && c.toNat ≤ 90 then Char.ofNat (c.toNat + 32) else c

/-- Model of Python str.strip family: remove characters satisfying p from
both ends of the string. -/
def pyStrip (p : Char → Bool) (l : Str) : Str :=
  ((l.dropWhile p).reverse.dropWhile p).reverse

/-- Model of Python str.rstrip: remove characters satisfying p from the end. -/
def pyRStrip (p : Char → Bool) (l : Str) : Str :=
  (l.reverse.dropWhile p).reverse

/-- Model of a regex substitution that replaces every maximal run of
characters failing keep by the single character sep.  The Boolean flag
records whether we are inside such a run (its replacement has already
been emitted). -/
def collapseRuns (keep : Char → Bool) (sep : Char) : Bool → Str → Str
  | _, [] => []
  | inRun, c :: rest =>
    if keep c then c :: collapseRuns keep sep false rest
    else if inRun then collapseRuns keep sep true rest
    else sep :: collapseRuns keep sep true rest

/-- Embedding of slugify from scripts/obsidian_memory.py:
strip, lowercase, collapse runs of non-[a-z0-9] to a hyphen, collapse
hyphen runs, strip hyphens.  The second substitution (regex dash-dash-plus
to dash) is modelled as collapsing every maximal hyphen run to one hyphen,
which agrees with the regex because a run of length one is left unchanged
by both. -/
def slugify (s : Str) : Str :=
  let t0 := pyStrip isWs s
  let t1 := t0.map lowerChar
  let t2 := collapseRuns isLowerAlnum '-' false t1
  let t3 := collapseRuns (fun c => !(c == '-')) '-' false t2
  pyStrip (fun c => c == '-') t3

/-- Embedding of the regex whitespace collapse followed by strip used by
truncate in scripts/hook_common.py. -/
def collapseWs (s : Str) : Str :=
  pyStrip isWs (collapseRuns (fun c => !(isWs c)) ' ' false s)

/-- Embedding of truncate from scripts/hook_common.py (duplicated verbatim
in scripts/codex_notify_hook.py): collapse whitespace and strip; return the
text if within the limit, otherwise keep limit-3 characters, right-strip
and append the three-dot marker.  Natural subtraction realizes
Python max 0 (limit - 3). -/
def truncate (s : Str) (limit : Nat) : Str :=
  let t := collapseWs s
  if t.length ≤ limit then t
  else pyRStrip isWs (t.take (limit - 3)) ++ "...".data

/-! ## JSON values and Python dictionaries -/

/-- JSON values as produced by Python json.loads; objects keep insertion
order, as Python dictionaries do. -/
inductive Json where
  | null
  | bool (b : Bool)
  | num (n : Int)
  | str (s : Str)
  | arr (xs : List Json)
  | obj (fields : List (Str × Json))

/-- Model of Python dict.get on an association list (first binding wins;
Python dictionaries cannot hold duplicate keys). -/
def objGet (fields : List (Str × Json)) (key : Str) : Option Json :=
  match fields with
  | [] => none
  | (k, v) :: rest => if k = key then some v else objGet rest key

/-- Model of Python dict item assignment: replace the first binding of the
key in place, else append the new binding (Python preserves insertion
order and updates in place). -/
def objSet (fields : List (Str × Json)) (key : Str) (value : Json) : List (Str × Json) :=
  match fields with
  | [] => [(key, value)]
  | (k, v) :: rest =>
    if k = key then (k, value) :: rest else (k, v) :: objSet rest key value

/-- Model of Python truthiness for JSON-shaped values. -/
def jsonTruthy : Json → Bool
  | .null => false
  | .bool b => b
  | .num n => !(n == 0)
  | .str s => !(s.isEmpty)
  | .arr xs => !(xs.isEmpty)
  | .obj fs => !(fs.isEmpty)

/-- Model of Python str applied to a JSON-shaped value.  Container values
are abstracted to their opening bracket: the adapters only compare the
result against short lowercase words such as user or human, and the true
Python repr of a list or dict starts with the same bracket character, so
the comparisons agree. -/
def pyStr : Json → Str
  | .str s => s
  | .null => "None".data
  | .bool true => "True".data
  | .bool false => "False".data
  | .num n => (toString n).data
  | .arr _ => ['[']
  | .obj _ => ['{']

/-! ## Filesystem paths -/

/-- An absolute path, as its list of components from the root. -/
abbrev FsPath := List Str

/-- Rendering of an absolute path as a string, as Python str(Path) does:
the root alone renders as a single slash. -/
def pathStr (p : FsPath) : Str :=
  '/' :: List.intercalate "/".data p

/-- The path itself followed by its parents, deepest first, ending at the
root: the iteration order of current, *current.parents in
ConfigStore.resolve_vault. -/
def ancestorChain (p : FsPath) : List FsPath :=
  p.inits.reverse

/-! ## ConfigStore (scripts/obsidian_memory.py) -/

/-- The persisted state file: none models an absent file, some j a file
whose JSON parse yields j. -/
abbrev Disk := Option Json

namespace ConfigStore

/-- Embedding of ConfigStore.load: an absent file yields the default
state; a JSON object is normalized so that workspace_vaults is a mapping
and default_vault_path is present.  A parseable file whose root is not an
object makes the Python code raise (a TypeError on item assignment or
membership test), modelled as an error. -/
def load (disk : Disk) : Except Str Json :=
  match disk with
  | none => .ok (.obj [("default_vault_path".data, .str []), ("workspace_vaults".data, .obj [])])
  | some (.obj fields) =>
    let fields :=
      match objGet fields "workspace_vaults".data with
      | some (.obj _) => fields
      | _ => objSet fields "workspace_vaults".data (.obj [])
    let fields :=
      match objGet fields "default_vault_path".data with
      | some _ => fields
      | none => objSet fields "default_vault_path".data (.str [])
    .ok (.obj fields)
  | some _ => .error "TypeError".data

/-- Embedding of ConfigStore.save: the state document that ends up on disk
once the call completes. -/
def save (data : Json) : Disk := some data

/-- Embedding of the write behaviour of ConfigStore.save, which opens the
state file in write mode (truncating it) and then streams the serialized
document into it: the sequence of file contents observable while the call
runs, from the old content through the truncated file and every written
chunk to the new content. -/
def saveObservableContents (old new : Str) : List Str :=
  old :: (List.range (new.length + 1)).map (fun k => new.take k)

/-- Embedding of ConfigStore.set_vault (vault path already resolved to an
absolute string): load, bind the workspace if given, set the default vault
only if none is set yet, save. -/
def set_vault (disk : Disk) (vault : Str) (workspace : Option FsPath) : Except Str Disk := do
  let data ← load disk
  let fields := match data with | .obj fs => fs | _ => []
  let fields :=
    match workspace with
    | some w =>
      let wmap := match objGet fields "workspace_vaults".data with | some (.obj m) => m | _ => []
      objSet fields "workspace_vaults".data (.obj (objSet wmap (pathStr w) (.str vault)))
    | none => fields
  let fields :=
    if jsonTruthy ((objGet fields "default_vault_path".data).getD .null) then fields
    else objSet fields "default_vault_path".data (.str vault)
  .ok (save (.obj fields))

/-- The candidate loop of ConfigStore.resolve_vault: return the value of
the first candidate path bound in the workspace map. -/
def firstBound (wmap : List (Str × Json)) : List FsPath → Option Json
  | [] => none
  | cand :: rest =>
    match objGet wmap (pathStr cand) with
    | some v => some v
    | none => firstBound wmap rest

/-- Embedding of ConfigStore.resolve_vault: walk the workspace and its
ancestors deepest first and return the first bound vault; otherwise return
the default vault (the empty string when none is recorded). -/
def resolve_vault (disk : Disk) (workspace : Option FsPath) : Except Str Json := do
  let data ← load disk
  let fields := match data with | .obj fs => fs | _ => []
  let wmap := match objGet fields "workspace_vaults".data with | some (.obj m) => m | _ => []
  let fromMap : Option Json :=
    match workspace with
    | some w => firstBound wmap (ancestorChain w)
    | none => none
  match fromMap with
  | some v => .ok v
  | none => .ok (.str (pyStr ((objGet fields "default_vault_path".data).getD (.str []))))

end ConfigStore

/-- Embedding of resolve_vault_or_exit: an untruthy resolved vault (no
binding and no default) aborts with the no-saved-vault message, modelled
as an error value. -/
def resolve_vault_or_exit (disk : Disk) (workspace : Option FsPath) : Except Str Json := do
  let vault ← ConfigStore.resolve_vault disk workspace
  if jsonTruthy vault then .ok vault
  else .error "No saved vault for this workspace".data

/-! ## Vault executor (class ObsidianCLI) -/

/-- A note vault: relative note path rendered as a posix string, mapped to
the note content. -/
abbrev Vault := List (Str × Str)

/-- Commands issued to the external note-editing program. -/
inductive CliCmd where
  | create (path content : Str)
  | append (path content : Str)
  | read (path : Str)
deriving DecidableEq

/-- Lookup of an existing note. -/
def vaultGet (v : Vault) (path : Str) : Option Str :=
  match v with
  | [] => none
  | (p, c) :: rest => if p = path then some c else vaultGet rest path

/-- Embedding of ObsidianCLI.ensure_note: if the note file already exists
the call returns the exists outcome and issues no external command;
otherwise it issues a create command, whose effect (the external program
is a black box that creates the note with the given content) is recorded
in the vault.  Result: vault after the call, commands issued, outcome
string (the created-branch stdout of the external program is not modelled
and appears as the empty string). -/
def ensure_note (v : Vault) (relPath content : Str) : Vault × List CliCmd × Str :=
  match vaultGet v relPath with
  | some _ => (v, [], "exists:".data ++ relPath)
  | none => (v ++ [(relPath, content)], [CliCmd.create relPath content], [])

/-! ## Shared hook utilities (scripts/hook_common.py) -/

/-- The fixed sentinel used when no user prompt can be extracted. -/
def sentinelPrompt : Str := "No user prompt captured.".data

/-- The fixed sentinel used when no assistant summary can be extracted. -/
def sentinelSummary : Str := "No assistant summary captured.".data

/-- True when the string strips to nothing, the negation of the Python
truthiness test value.strip(). -/
def strBlank (s : Str) : Bool := (pyStrip isWs s).isEmpty

/-- One chunk collected by content_to_text from a list item: a plain
string, or the text field of a dictionary when it is a string. -/
def contentChunk : Json → Option Str
  | .str s => some s
  | .obj fields =>
    match objGet fields "text".data with
    | some (.str t) => some t
    | _ => none
  | _ => none

/-- Embedding of content_to_text from scripts/hook_common.py (duplicated
as an underscore-named helper in scripts/codex_notify_hook.py): a string
is returned as is, a list is flattened to its string chunks joined by
newlines, anything else becomes the empty string. -/
def content_to_text : Json → Str
  | .str s => s
  | .arr items => List.intercalate "\n".data (items.filterMap contentChunk)
  | _ => []

/-- First key whose value is a non-blank string; the loop shape shared by
the direct-field scans of the Claude, Cursor and Antigravity extractors. -/
def firstStrField (fields : List (Str × Json)) : List Str → Option Str
  | [] => none
  | k :: rest =>
    match objGet fields k with
    | some (.str v) => if strBlank v then firstStrField fields rest else some v
    | _ => firstStrField fields rest

/-- First key holding a list with at least one dictionary element, that
list filtered to its dictionary elements: the shared shape of
extract_messages (Claude) and the underscore messages helpers (Cursor,
Antigravity).  A list value with no dictionary elements falls through to
the next key. -/
def firstDictList (fields : List (Str × Json)) : List Str → List Json
  | [] => []
  | k :: rest =>
    match objGet fields k with
    | some (.arr xs) =>
      let out := xs.filter (fun item => match item with | .obj _ => true | _ => false)
      if out.isEmpty then firstDictList fields rest else out
    | _ => firstDictList fields rest

/-- Python str.lower over a whole string. -/
def pyLower (s : Str) : Str := s.map lowerChar

/-- Role of a message as the Claude extractor computes it:
str(msg.get(role, empty)).lower(). -/
def claudeRole (mf : List (Str × Json)) : Str :=
  pyLower (pyStr ((objGet mf "role".data).getD (.str [])))

/-- Role of a message as the Cursor and Antigravity extractors compute it:
str(msg.get(role, msg.get(author, empty))).lower(). -/
def roleOrAuthor (mf : List (Str × Json)) : Str :=
  pyLower (pyStr ((objGet mf "role".data).getD ((objGet mf "author".data).getD (.str []))))

/-- The Python expression msg.get(content) or msg.get(text) used by the
Cursor and Antigravity extractors. -/
def contentOrText (mf : List (Str × Json)) : Json :=
  let c := (objGet mf "content".data).getD .null
  if jsonTruthy c then c else (objGet mf "text".data).getD .null

/-- True when the role equals user or human. -/
def isUserRole (r : Str) : Bool := r = "user".data || r = "human".data

/-- True when the role equals assistant or ai. -/
def isAssistantRole (r : Str) : Bool := r = "assistant".data || r = "ai".data

/-- The user-message texts collected by the Cursor and Antigravity prompt
extractors: dictionaries whose role-or-author is user or human contribute
their flattened content, nothing else contributes. -/
def userParts (msgs : List Json) : List Str :=
  msgs.filterMap (fun m =>
    match m with
    | .obj mf => if isUserRole (roleOrAuthor mf) then some (content_to_text (contentOrText mf)) else none
    | _ => none)

/-- The assistant-message texts collected by the Cursor and Antigravity
summary extractors. -/
def assistantParts (msgs : List Json) : List Str :=
  msgs.filterMap (fun m =>
    match m with
    | .obj mf => if isAssistantRole (roleOrAuthor mf) then some (content_to_text (contentOrText mf)) else none
    | _ => none)

/-- Join with blank lines after discarding blank entries, the shape
backslash-n backslash-n joined over a filtered comprehension used by every
prompt and summary extractor. -/
def joinParts (parts : List Str) : Str :=
  List.intercalate "\n\n".data (parts.filter (fun t => !(strBlank t)))

/-- Embedding of log_turn from scripts/hook_common.py, reduced to its exit
behaviour: the show-vault probe failing, the record-run call failing, and
the success path all end in a zero return. -/
def log_turn (showRc recordRc : Int) : Nat :=
  if showRc ≠ 0 then 0
  else if recordRc ≠ 0 then 0
  else 0

/-- Python a or b over JSON-shaped values: the left operand when truthy,
otherwise the right one. -/
def pyOr (a b : Json) : Json := if jsonTruthy a then a else b

/-- The Python comparison payload.get(key) == value for a string value:
true exactly when the field is present, is a string and equals the value. -/
def strFieldEq (fields : List (Str × Json)) (key val : Str) : Bool :=
  match objGet fields key with
  | some (.str r) => r == val
  | _ => false

/-! ## Codex schema (scripts/codex_notify_hook.py) -/

namespace Codex

/-- One entry of the input-messages list as collected by the Codex
extract_prompt loop: a plain string is kept, and a dictionary contributes
the flattened text of its content field whether or not its role is user
(the source appends the same expression in the user branch and in the
fall-through branch); other values are skipped. -/
def msgText (m : Json) : Option Str :=
  match m with
  | .str s => some s
  | .obj mf =>
    if strFieldEq mf "role".data "user".data
    then some (content_to_text ((objGet mf "content".data).getD .null))
    else some (content_to_text ((objGet mf "content".data).getD .null))
  | _ => none

/-- Embedding of extract_prompt from scripts/codex_notify_hook.py. -/
def extract_prompt (fields : List (Str × Json)) : Str :=
  match objGet fields "input-messages".data with
  | some (.arr msgs) =>
    let joined := joinParts (msgs.filterMap msgText)
    if joined.isEmpty then sentinelPrompt else truncate joined 3000
  | _ => sentinelPrompt

/-- Embedding of extract_summary from scripts/codex_notify_hook.py. -/
def extract_summary (fields : List (Str × Json)) : Str :=
  match objGet fields "last-assistant-message".data with
  | some (.str s) => if strBlank s then sentinelSummary else truncate s 500
  | _ => sentinelSummary

/-- Embedding of main from scripts/codex_notify_hook.py, as a function of
the parse result of the payload argument (none when json.loads raises)
and of the return codes of the show-vault and record-run subprocesses. -/
def main (parsed : Option Json) (showRc recordRc : Int) : Nat :=
  match parsed with
  | none => 0
  | some (.obj fields) =>
    if strFieldEq fields "type".data "agent-turn-complete".data
    then (if showRc ≠ 0 then 0 else if recordRc ≠ 0 then 0 else 0)
    else 0
  | some _ => 0

end Codex

/-! ## Claude schema (scripts/claude_notify_hook.py) -/

namespace ClaudeSchema

/-- The key preference list of extract_messages. -/
def msgKeys : List Str := ["messages".data, "input".data, "chat".data]

/-- Embedding of extract_prompt from scripts/claude_notify_hook.py. -/
def extract_prompt (fields : List (Str × Json)) : Str :=
  match firstStrField fields ["prompt".data, "user_prompt".data, "message".data, "input".data] with
  | some v => truncate v 3000
  | none =>
    let messages := firstDictList fields msgKeys
    let user_text := messages.filterMap (fun m =>
      match m with
      | .obj mf =>
        if isUserRole (claudeRole mf)
        then some (content_to_text ((objGet mf "content".data).getD .null))
        else none
      | _ => none)
    let text := joinParts user_text
    truncate (if text.isEmpty then sentinelPrompt else text) 3000

/-- The assistant-message texts of the Claude summary fallback. -/
def assistantPartsClaude (fields : List (Str × Json)) : List Str :=
  (firstDictList fields msgKeys).filterMap (fun m =>
    match m with
    | .obj mf =>
      if isAssistantRole (claudeRole mf)
      then some (content_to_text ((objGet mf "content".data).getD .null))
      else none
    | _ => none)

/-- Embedding of extract_summary from scripts/claude_notify_hook.py. -/
def extract_summary (fields : List (Str × Json)) : Str :=
  match firstStrField fields
      ["last_assistant_message".data, "assistant".data, "response".data,
       "output".data, "tool_response".data] with
  | some v => truncate v 500
  | none =>
    match objGet fields "tool_name".data with
    | some (.str tn) =>
      if strBlank tn then
        let text := joinParts (assistantPartsClaude fields)
        truncate (if text.isEmpty then sentinelSummary else text) 500
      else truncate ("Claude hook event for tool: ".data ++ tn) 500
    | _ =>
      let text := joinParts (assistantPartsClaude fields)
      truncate (if text.isEmpty then sentinelSummary else text) 500

/-- The allow-list of Claude hook event names. -/
def allowedEvents : List Str :=
  ["UserPromptSubmit".data, "PreToolUse".data, "PostToolUse".data, "Notification".data,
   "Stop".data, "SubagentStop".data, "PreCompact".data, "SessionStart".data, "SessionEnd".data]

/-- Embedding of main from scripts/claude_notify_hook.py as a function of
the parsed payload (none covers empty input, invalid JSON and a non-dict
root, exactly what load_payload returns None for) and the subprocess
return codes consumed by log_turn. -/
def main (parsed : Option Json) (showRc recordRc : Int) : Nat :=
  match parsed with
  | none => 0
  | some (.obj fields) =>
    let eventName := pyStrip isWs (pyStr
      (pyOr (pyOr ((objGet fields "hook_event_name".data).getD .null)
        ((objGet fields "type".data).getD .null)) ((objGet fields "event".data).getD .null)))
    if eventName.isEmpty then 0
    else if allowedEvents.contains eventName then log_turn showRc recordRc
    else 0
  | some _ => 0

end ClaudeSchema


/-! ## HMAC-SHA256, the model of the hashlib and hmac primitives used by
the Cursor webhook adapter.  Words are natural numbers modulo 2^32. -/

/-- The 32-bit modulus. -/
def M32 : Nat := 4294967296

/-- Reduce to a 32-bit word. -/
def w32 (x : Nat) : Nat := x % M32

/-- Right rotation of a 32-bit word. -/
def rotr32 (n x : Nat) : Nat := w32 ((x >>> n) ||| (x <<< (32 - n)))

/-- The SHA-256 round constants. -/
def shaK : List Nat :=
  [1116352408, 1899447441, 3049323471, 3921009573, 961987163, 1508970993,
   2453635748, 2870763221, 3624381080, 310598401, 607225278, 1426881987,
   1925078388, 2162078206, 2614888103, 3248222580, 3835390401, 4022224774,
   264347078, 604807628, 770255983, 1249150122, 1555081692, 1996064986,
   2554220882, 2821834349, 2952996808, 3210313671, 3336571891, 3584528711,
   113926993, 338241895, 666307205, 773529912, 1294757372, 1396182291,
   1695183700, 1986661051, 2177026350, 2456956037, 2730485921, 2820302411,
   3259730800, 3345764771, 3516065817, 3600352804, 4094571909, 275423344,
   430227734, 506948616, 659060556, 883997877, 958139571, 1322822218,
   1537002063, 1747873779, 1955562222, 2024104815, 2227730452, 2361852424,
   2428436474, 2756734187, 3204031479, 3329325298]

/-- The SHA-256 initial hash value, as decimal 32-bit words. -/
def shaH0 : List Nat :=
  [1779033703, 3144134277, 1013904242, 2773480762,
   1359893119, 2600822924, 528734635, 1541459225]

/-- Big-endian word from bytes. -/
def be32 (bytes : List Nat) : Nat := bytes.foldl (fun acc b => acc * 256 + b) 0

/-- Big-endian bytes of a 32-bit word. -/
def bytesOfWord (x : Nat) : List Nat :=
  [(x >>> 24) &&& 255, (x >>> 16) &&& 255, (x >>> 8) &&& 255, x &&& 255]

/-- SHA-256 message padding: append 0x80, zero bytes up to 56 modulo 64,
then the bit length as eight big-endian bytes. -/
def shaPad (msg : List Nat) : List Nat :=
  let l := msg.length
  let zeros := (119 - (l % 64)) % 64
  msg ++ [128] ++ List.replicate zeros 0
      ++ [56, 48, 40, 32, 24, 16, 8, 0].map (fun i => ((8 * l) >>> i) &&& 255)

/-- Split into 64-byte blocks; the fuel argument (at least the list
length) keeps the recursion structural. -/
def chunksAux : Nat → List Nat → List (List Nat)
  | 0, _ => []
  | _, [] => []
  | fuel + 1, c :: rest => ((c :: rest).take 64) :: chunksAux fuel ((c :: rest).drop 64)

/-- Split a byte list into 64-byte blocks. -/
def chunks64 (l : List Nat) : List (List Nat) := chunksAux l.length l

/-- The four sigma functions of SHA-256. -/
def smallSigma0 (x : Nat) : Nat := rotr32 7 x ^^^ rotr32 18 x ^^^ (x >>> 3)

/-- See smallSigma0. -/
def smallSigma1 (x : Nat) : Nat := rotr32 17 x ^^^ rotr32 19 x ^^^ (x >>> 10)

/-- See smallSigma0. -/
def bigSigma0 (x : Nat) : Nat := rotr32 2 x ^^^ rotr32 13 x ^^^ rotr32 22 x

/-- See smallSigma0. -/
def bigSigma1 (x : Nat) : Nat := rotr32 6 x ^^^ rotr32 11 x ^^^ rotr32 25 x

/-- Extend the 16-word schedule by the given number of words. -/
def extendSchedule : Nat → List Nat → List Nat
  | 0, w => w
  | n + 1, w =>
    let t := w.length
    let nw := w32 (smallSigma1 (w.getD (t - 2) 0) + w.getD (t - 7) 0
      + smallSigma0 (w.getD (t - 15) 0) + w.getD (t - 16) 0)
    extendSchedule n (w ++ [nw])

/-- One SHA-256 compression step over a 64-byte block. -/
def shaCompress (h : List Nat) (block : List Nat) : List Nat :=
  let w16 := (List.range 16).map (fun i => be32 ((block.drop (4 * i)).take 4))
  let w := extendSchedule 48 w16
  let st0 := (h.getD 0 0, h.getD 1 0, h.getD 2 0, h.getD 3 0,
              h.getD 4 0, h.getD 5 0, h.getD 6 0, h.getD 7 0)
  let stF := (List.range 64).foldl (fun st t =>
    let (a, b, c, d, e, f, g, hh) := st
    let ch := (e &&& f) ^^^ ((e ^^^ (M32 - 1)) &&& g)
    let temp1 := w32 (hh + bigSigma1 e + ch + shaK.getD t 0 + w.getD t 0)
    let maj := (a &&& b) ^^^ (a &&& c) ^^^ (b &&& c)
    let temp2 := w32 (bigSigma0 a + maj)
    (w32 (temp1 + temp2), a, b, c, w32 (d + temp1), e, f, g)) st0
  let (a, b, c, d, e, f, g, hh) := stF
  [w32 (h.getD 0 0 + a), w32 (h.getD 1 0 + b), w32 (h.getD 2 0 + c), w32 (h.getD 3 0 + d),
   w32 (h.getD 4 0 + e), w32 (h.getD 5 0 + f), w32 (h.getD 6 0 + g), w32 (h.getD 7 0 + hh)]

/-- SHA-256 of a byte list, as a 32-byte list. -/
def sha256 (msg : List Nat) : List Nat :=
  (((chunks64 (shaPad msg)).foldl shaCompress shaH0).map bytesOfWord).flatten

/-- Lowercase hex digit. -/
def hexDigitChar (n : Nat) : Char :=
  if n < 10 then Char.ofNat (48 + n) else Char.ofNat (87 + n)

/-- Lowercase hex rendering of a byte list, as Python hexdigest. -/
def bytesToHex (bs : List Nat) : Str :=
  (bs.map (fun b => [hexDigitChar (b >>> 4), hexDigitChar (b &&& 15)])).flatten

/-- UTF-8 bytes of one character, the model of Python str.encode. -/
def utf8Char (c : Char) : List Nat :=
  let n := c.toNat
  if n < 128 then [n]
  else if n < 2048 then [192 ||| (n >>> 6), 128 ||| (n &&& 63)]
  else if n < 65536 then
    [224 ||| (n >>> 12), 128 ||| ((n >>> 6) &&& 63), 128 ||| (n &&& 63)]
  else
    [240 ||| (n >>> 18), 128 ||| ((n >>> 12) &&& 63), 128 ||| ((n >>> 6) &&& 63), 128 ||| (n &&& 63)]

/-- UTF-8 bytes of a string. -/
def utf8Encode (s : Str) : List Nat := (s.map utf8Char).flatten

/-- HMAC-SHA256 hex digest, the model of
hmac.new(secret, payload, hashlib.sha256).hexdigest(). -/
def hmacSha256Hex (key msg : List Nat) : Str :=
  let key := if 64 < key.length then sha256 key else key
  let key := key ++ List.replicate (64 - key.length) 0
  bytesToHex (sha256 ((key.map (fun b => b ^^^ 92))
    ++ sha256 ((key.map (fun b => b ^^^ 54)) ++ msg)))

/-! ## Cursor schema (scripts/cursor_notify_hook.py) -/

namespace Cursor

/-- The key preference list of the underscore messages helper. -/
def msgKeys : List Str :=
  ["messages".data, "chat_messages".data, "conversation".data, "transcript".data]

/-- The environment variables read by the Cursor adapter. -/
structure Env where
  webhookSignature : Option Str
  signatureVar : Option Str
  webhookSecret : Option Str

/-- An environment value accepted by the signature scan: present and
non-blank, returned stripped. -/
def envSigValue (v : Option Str) : Option Str :=
  match v with
  | some s => if strBlank s then none else some (pyStrip isWs s)
  | none => none

/-- Embedding of the underscore extract_signature helper: the two
environment variables are preferred over the payload signature field, the
result is stripped, and the empty string means no signature found. -/
def extract_signature (env : Env) (fields : List (Str × Json)) : Str :=
  match envSigValue env.webhookSignature with
  | some v => v
  | none =>
    match envSigValue env.signatureVar with
    | some v => v
    | none =>
      match objGet fields "signature".data with
      | some (.str s) => if strBlank s then [] else pyStrip isWs s
      | _ => []

/-- Embedding of the underscore validate_signature helper: with no secret
configured every payload is accepted; otherwise the extracted signature,
an optional sha256= tag stripped, must equal the hex HMAC-SHA256 of the
raw payload under the secret (hmac.compare_digest, a timing-safe equality
over strings, is modelled by equality). -/
def validate_signature (env : Env) (raw : Str) (fields : List (Str × Json)) : Bool :=
  let secret := pyStrip isWs (env.webhookSecret.getD [])
  if secret.isEmpty then true
  else
    let signature := extract_signature env fields
    if signature.isEmpty then false
    else
      let signature := if signature.take 7 == "sha256=".data then signature.drop 7 else signature
      signature == hmacSha256Hex (utf8Encode secret) (utf8Encode raw)

/-- Embedding of extract_prompt from scripts/cursor_notify_hook.py. -/
def extract_prompt (fields : List (Str × Json)) : Str :=
  let msgs := firstDictList fields msgKeys
  let p0 := joinParts (userParts msgs)
  let p1 := if p0.isEmpty
    then (match objGet fields "prompt".data with | some (.str s) => s | _ => p0)
    else p0
  let p2 := if p1.isEmpty
    then (match objGet fields "summary".data with | some (.str s) => s | _ => p1)
    else p1
  truncate (if p2.isEmpty then sentinelPrompt else p2) 3000

/-- The message-scan fallback of extract_summary. -/
def summaryFallback (fields : List (Str × Json)) : Str :=
  let text := joinParts (assistantParts (firstDictList fields msgKeys))
  truncate (if text.isEmpty then sentinelSummary else text) 500

/-- Embedding of extract_summary from scripts/cursor_notify_hook.py; the
summary field additionally carries the payload status when one is
present. -/
def extract_summary (fields : List (Str × Json)) : Str :=
  match firstStrField fields
      ["assistant_message".data, "last_assistant_message".data, "response".data, "output".data] with
  | some v => truncate v 500
  | none =>
    match objGet fields "summary".data with
    | some (.str v) =>
      if strBlank v then summaryFallback fields
      else
        match objGet fields "status".data with
        | some (.str st) =>
          if strBlank st then truncate v 500
          else truncate (v ++ " (status: ".data ++ st ++ [')']) 500
        | _ => truncate v 500
    | _ => summaryFallback fields

/-- Embedding of main from scripts/cursor_notify_hook.py as a function of
the environment, the raw payload text, its parse result (none covers an
empty input, invalid JSON and a non-dict root) and the subprocess return
codes consumed by log_turn. -/
def main (env : Env) (raw : Str) (parsed : Option Json) (showRc recordRc : Int) : Nat :=
  match parsed with
  | none => 0
  | some (.obj fields) =>
    if !(validate_signature env raw fields) then 0
    else
      let eventName := pyStrip isWs (pyStr
        (pyOr ((objGet fields "event".data).getD .null)
          (pyOr ((objGet fields "type".data).getD .null) (.str []))))
      if eventName.isEmpty then 0 else log_turn showRc recordRc
  | some _ => 0

end Cursor

/-! ## Antigravity schema (scripts/antigravity_notify_hook.py) -/

namespace Antigravity

/-- The key preference list of the underscore messages helper. -/
def msgKeys : List Str :=
  ["messages".data, "conversation".data, "transcript".data, "turn".data]

/-- Embedding of the underscore event_payload helper: the first of the
data, event and payload keys holding a dictionary, else the payload
itself. -/
def eventPayload (fields : List (Str × Json)) : List (Str × Json) :=
  match objGet fields "data".data with
  | some (.obj m) => m
  | _ =>
    match objGet fields "event".data with
    | some (.obj m) => m
    | _ =>
      match objGet fields "payload".data with
      | some (.obj m) => m
      | _ => fields

/-- Embedding of extract_prompt from scripts/antigravity_notify_hook.py. -/
def extract_prompt (fields : List (Str × Json)) : Str :=
  let p0 := joinParts (userParts (firstDictList fields msgKeys))
  let p1 := if p0.isEmpty
    then (match objGet fields "prompt".data with | some (.str s) => s | _ => p0)
    else p0
  truncate (if p1.isEmpty then sentinelPrompt else p1) 3000

/-- Embedding of extract_summary from scripts/antigravity_notify_hook.py. -/
def extract_summary (fields : List (Str × Json)) : Str :=
  match firstStrField fields
      ["assistant".data, "assistant_message".data, "last_assistant_message".data,
       "output".data, "response".data] with
  | some v => truncate v 500
  | none =>
    let text := joinParts (assistantParts (firstDictList fields msgKeys))
    truncate (if text.isEmpty then sentinelSummary else text) 500

/-- The Python substring test needle in haystack. -/
def strContains (hay needle : Str) : Bool :=
  match hay with
  | [] => needle.isEmpty
  | _ :: rest => needle.isPrefixOf hay || strContains rest needle

/-- Embedding of main from scripts/antigravity_notify_hook.py: unwrap the
event payload, skip events whose lowered type avoids all three relevance
tokens, else log the turn. -/
def main (parsed : Option Json) (showRc recordRc : Int) : Nat :=
  match parsed with
  | none => 0
  | some (.obj outer) =>
    let payload := eventPayload outer
    let eventType := pyLower (pyStr
      (pyOr ((objGet payload "type".data).getD .null)
        (pyOr ((objGet outer "type".data).getD .null)
          (pyOr ((objGet payload "event".data).getD .null) (.str [])))))
    if !eventType.isEmpty
        && (["turn".data, "message".data, "complete".data].all
              (fun tok => !(strContains eventType tok)))
    then 0
    else log_turn showRc recordRc
  | some _ => 0

end Antigravity

/-! ## Run counters and audit frequency

The test suite under scripts/tests imports DEFAULT_AUDIT_EVERY_RUNS and
the ConfigStore operations get_audit_every_runs, set_audit_every_runs,
bump_run_counter and reset_run_counter, and the specification describes
the record-run workflow as bumping a per-(workspace, project-slug) counter
and auto-triggering an audit when the new value is a multiple of the
configured frequency; the implementation of these operations is not
present in the source tree.  The definitions below model them from the
specification. -/

/-- Modelled from the spec: the default audit frequency constant.  The
spec fixes a default constant but not its value; no property proved here
depends on the value. -/
def DEFAULT_AUDIT_EVERY_RUNS : Nat := 5

namespace ConfigStore

/-- Modelled from the spec: run counters are keyed by the
(workspacePath, projectSlug) pair, rendered here as one string key. -/
def counterKey (w : FsPath) (slug : Str) : Str :=
  pathStr w ++ "::".data ++ slug

/-- Modelled from the spec: persisted integer accessor for the audit
frequency, falling back to the default constant when absent. -/
def get_audit_every_runs (disk : Disk) : Except Str Nat := do
  let data ← load disk
  let fields := match data with | .obj fs => fs | _ => []
  match objGet fields "audit_every_runs".data with
  | some (.num n) => .ok n.toNat
  | _ => .ok DEFAULT_AUDIT_EVERY_RUNS

/-- Modelled from the spec: persisted integer mutator for the audit
frequency. -/
def set_audit_every_runs (disk : Disk) (n : Nat) : Except Str Disk := do
  let data ← load disk
  let fields := match data with | .obj fs => fs | _ => []
  .ok (save (.obj (objSet fields "audit_every_runs".data (.num n))))

/-- Modelled from the spec: increment and return the run counter for the
key, creating it at zero when absent, and persist the new state. -/
def bump_run_counter (disk : Disk) (w : FsPath) (slug : Str) : Except Str (Nat × Disk) := do
  let data ← load disk
  let fields := match data with | .obj fs => fs | _ => []
  let counters := match objGet fields "run_counters".data with | some (.obj m) => m | _ => []
  let cur := match objGet counters (counterKey w slug) with | some (.num n) => n.toNat | _ => 0
  let newCount := cur + 1
  .ok (newCount, save (.obj (objSet fields "run_counters".data
    (.obj (objSet counters (counterKey w slug) (.num newCount))))))

/-- Modelled from the spec: set the run counter for the key back to
zero. -/
def reset_run_counter (disk : Disk) (w : FsPath) (slug : Str) : Except Str Disk := do
  let data ← load disk
  let fields := match data with | .obj fs => fs | _ => []
  let counters := match objGet fields "run_counters".data with | some (.obj m) => m | _ => []
  .ok (save (.obj (objSet fields "run_counters".data
    (.obj (objSet counters (counterKey w slug) (.num 0))))))

end ConfigStore

/-- Modelled from the spec: the counter-and-audit tail of the record-run
workflow.  After the run note is written the counter is bumped, and an
audit fires exactly when the frequency is positive and the new counter
value is a multiple of it (frequency zero disables auto-audit). -/
def record_run_bump (disk : Disk) (w : FsPath) (slug : Str) : Except Str (Disk × Bool) := do
  let (cnt, disk') ← ConfigStore.bump_run_counter disk w slug
  let freq ← ConfigStore.get_audit_every_runs disk'
  .ok (disk', decide (0 < freq) && cnt % freq == 0)

/-- N consecutive record-run calls for one workspace and project: the
final state and how many audits fired. -/
def record_runs (w : FsPath) (slug : Str) : Nat → Disk → Except Str (Disk × Nat)
  | 0, disk => .ok (disk, 0)
  | n + 1, disk => do
    let (disk', fired) ← record_run_bump disk w slug
    let (diskF, audits) ← record_runs w slug n disk'
    .ok (diskF, (if fired then 1 else 0) + audits)

/-- A state document with the canonical key set: a default vault path,
a workspace map, an audit frequency and a counter map. -/
def mkCounterState (freq : Int) (counters : List (Str × Json)) : Disk :=
  some (.obj
    [("default_vault_path".data, .str []),
     ("workspace_vaults".data, .obj []),
     ("audit_every_runs".data, .num freq),
     ("run_counters".data, .obj counters)])

/-- A state document holding a default vault path and a workspace map,
the shape ConfigStore.set_vault persists. -/
def mkVaultState (dflt : Str) (wv : List (Str × Json)) : Disk :=
  some (.obj [("default_vault_path".data, .str dflt), ("workspace_vaults".data, .obj wv)])

/-! ## Lemmas about the dictionary model -/

theorem objGet_objSet_self (m : List (Str × Json)) (k : Str) (v : Json) :
    objGet (objSet m k v) k = some v := by
  induction m with
  | nil => simp [objSet, objGet]
  | cons hd tl ih =>
    obtain ⟨k', v'⟩ := hd
    by_cases h : k' = k
    · subst h
      simp [objSet, objGet]
    · simp [objSet, objGet, h, ih]

/-! ## The audit cycle arithmetic -/

theorem audit_step (F c n : Nat) :
    ((if (decide (0 < F) && ((c + 1) % F == 0)) = true then 1 else 0) : Nat)
      + ((c + 1 + n) / F - (c + 1) / F) = (c + (n + 1)) / F - c / F := by
  have hcn : c + 1 + n = c + (n + 1) := by omega
  rcases Nat.eq_zero_or_pos F with hF | hF
  · subst hF
    simp [Nat.div_zero]
  · have hd := Nat.succ_div c F
    have h2 : (c + 1) / F ≤ (c + (n + 1)) / F := by
      rw [← hcn]
      exact Nat.div_le_div_right (by omega)
    by_cases hdvd : F ∣ c + 1
    · have hmod : (c + 1) % F = 0 := (Nat.dvd_iff_mod_eq_zero).mp hdvd
      have hif : (decide (0 < F) && ((c + 1) % F == 0)) = true := by simp [hF, hmod]
      have hone : (if (decide (0 < F) && ((c + 1) % F == 0)) = true then (1 : Nat) else 0) = 1 := by
        rw [hif]
        simp
      rw [hone, hcn, hd, if_pos hdvd]
      rw [hd, if_pos hdvd] at h2
      omega
    · have hmod : ¬((c + 1) % F = 0) := fun hz => hdvd ((Nat.dvd_iff_mod_eq_zero).mpr hz)
      have hif : (decide (0 < F) && ((c + 1) % F == 0)) = false := by simp [hmod]
      have hzero : (if (decide (0 < F) && ((c + 1) % F == 0)) = true then (1 : Nat) else 0) = 0 := by
        rw [hif]
        simp
      rw [hzero, hcn, hd, if_neg hdvd]
      omega

theorem load_mkCounterState (f : Int) (cs : List (Str × Json)) :
    ConfigStore.load (mkCounterState f cs) = .ok (.obj
      [("default_vault_path".data, .str []),
       ("workspace_vaults".data, .obj []),
       ("audit_every_runs".data, .num f),
       ("run_counters".data, .obj cs)]) := rfl

theorem getFreq_mkCounterState (f : Int) (cs : List (Str × Json)) :
    ConfigStore.get_audit_every_runs (mkCounterState f cs) = .ok f.toNat := rfl

theorem reset_mkCounterState (f : Int) (cs : List (Str × Json)) (w : FsPath) (slug : Str) :
    ConfigStore.reset_run_counter (mkCounterState f cs) w slug
      = .ok (mkCounterState f (objSet cs (ConfigStore.counterKey w slug) (.num 0))) := rfl

theorem bump_mkCounterState (f : Int) (cs : List (Str × Json)) (w : FsPath) (slug : Str)
    (c : Nat) (h : objGet cs (ConfigStore.counterKey w slug) = some (.num (c : Nat))) :
    ConfigStore.bump_run_counter (mkCounterState f cs) w slug
      = .ok (c + 1, mkCounterState f (objSet cs (ConfigStore.counterKey w slug)
          (.num ((c + 1 : Nat) : Int)))) := by
  have e : ConfigStore.bump_run_counter (mkCounterState f cs) w slug =
      .ok ((match objGet cs (ConfigStore.counterKey w slug) with
            | some (.num n) => n.toNat | _ => 0) + 1,
           mkCounterState f (objSet cs (ConfigStore.counterKey w slug)
             (.num (((match objGet cs (ConfigStore.counterKey w slug) with
                      | some (.num n) => n.toNat | _ => 0) + 1 : Nat) : Int)))) := rfl
  rw [e, h]
  simp

theorem record_run_bump_mk (f : Int) (cs : List (Str × Json)) (w : FsPath) (slug : Str)
    (c : Nat) (h : objGet cs (ConfigStore.counterKey w slug) = some (.num (c : Nat))) :
    record_run_bump (mkCounterState f cs) w slug
      = .ok (mkCounterState f (objSet cs (ConfigStore.counterKey w slug)
          (.num ((c + 1 : Nat) : Int))),
        decide (0 < f.toNat) && ((c + 1) % f.toNat == 0)) := by
  unfold record_run_bump
  rw [bump_mkCounterState f cs w slug c h]
  simp only [bind, Except.bind, getFreq_mkCounterState]

theorem record_runs_spec (w : FsPath) (slug : Str) (f : Int) (N : Nat) :
    ∀ (cs : List (Str × Json)) (c : Nat),
      objGet cs (ConfigStore.counterKey w slug) = some (.num (c : Nat)) →
      ∃ cs', record_runs w slug N (mkCounterState f cs)
          = .ok (mkCounterState f cs', (c + N) / f.toNat - c / f.toNat)
        ∧ objGet cs' (ConfigStore.counterKey w slug) = some (.num ((c + N : Nat) : Int)) := by
  induction N with
  | zero =>
    intro cs c h
    exact ⟨cs, by simp [record_runs], by simpa using h⟩
  | succ n ih =>
    intro cs c h
    obtain ⟨cs', h1, h2⟩ := ih (objSet cs (ConfigStore.counterKey w slug)
      (.num ((c + 1 : Nat) : Int))) (c + 1) (objGet_objSet_self _ _ _)
    refine ⟨cs', ?_, ?_⟩
    · rw [record_runs, record_run_bump_mk f cs w slug c h]
      simp only [bind, Except.bind]
      rw [h1]
      rw [← audit_step f.toNat c n]
    · have hcn : c + 1 + n = c + (n + 1) := by omega
      rw [hcn] at h2
      exact h2

/-- C1: with a resolved vault and audit frequency F greater than zero,
every record-run call bumps the persisted per-(workspace, project-slug)
counter by one, N consecutive calls starting from a zero counter fire
exactly floor(N/F) audits (an audit fires exactly when the new counter
value is a multiple of F) and leave the counter at N, and after a counter
reset the next bump yields count one. -/
theorem c1_record_run_audit_cycle
    (w : FsPath) (slug : Str) (f : Int) (N : Nat) (cs : List (Str × Json))
    (hF : 0 < f.toNat)
    (h0 : objGet cs (ConfigStore.counterKey w slug) = some (.num ((0 : Nat) : Int))) :
    (∀ (cs₁ : List (Str × Json)) (c : Nat),
        objGet cs₁ (ConfigStore.counterKey w slug) = some (.num (c : Nat)) →
        ConfigStore.bump_run_counter (mkCounterState f cs₁) w slug
          = .ok (c + 1, mkCounterState f (objSet cs₁ (ConfigStore.counterKey w slug)
              (.num ((c + 1 : Nat) : Int)))))
    ∧ (∃ cs', record_runs w slug N (mkCounterState f cs)
          = .ok (mkCounterState f cs', N / f.toNat)
        ∧ objGet cs' (ConfigStore.counterKey w slug) = some (.num ((N : Nat) : Int)))
    ∧ (∀ (cs₂ : List (Str × Json)),
        ∃ disk₂, ConfigStore.reset_run_counter (mkCounterState f cs₂) w slug = .ok disk₂
          ∧ ∃ disk₃, ConfigStore.bump_run_counter disk₂ w slug = .ok (1, disk₃)) := by
  refine ⟨fun cs₁ c h => bump_mkCounterState f cs₁ w slug c h, ?_, ?_⟩
  · obtain ⟨cs', h1, h2⟩ := record_runs_spec w slug f N cs 0 h0
    exact ⟨cs', by simpa using h1, by simpa using h2⟩
  · intro cs₂
    refine ⟨_, reset_mkCounterState f cs₂ w slug, ?_⟩
    have hb := bump_mkCounterState f
      (objSet cs₂ (ConfigStore.counterKey w slug) (.num 0)) w slug 0
      (by simpa using objGet_objSet_self cs₂ (ConfigStore.counterKey w slug) (.num 0))
    exact ⟨_, by simpa using hb⟩

theorem c1_record_run_audit_cycle_witness :
    ∃ cs', record_runs ["proj".data] "demo".data 5
        (mkCounterState 2 [(ConfigStore.counterKey ["proj".data] "demo".data, .num 0)])
        = .ok (mkCounterState 2 cs', 2)
      ∧ objGet cs' (ConfigStore.counterKey ["proj".data] "demo".data)
          = some (.num ((5 : Nat) : Int)) :=
  ((c1_record_run_audit_cycle ["proj".data] "demo".data 2 5
    [(ConfigStore.counterKey ["proj".data] "demo".data, .num 0)]
    (by decide) (by rfl)).2).1

/-! ## Vault resolution -/

theorem resolve_vault_mkVaultState (d : Str) (wv : List (Str × Json)) (w : FsPath) :
    ConfigStore.resolve_vault (mkVaultState d wv) (some w)
      = match ConfigStore.firstBound wv (ancestorChain w) with
        | some v => .ok v
        | none => .ok (.str d) := rfl

theorem firstBound_append (wv : List (Str × Json)) (pre rest : List FsPath)
    (h : ∀ b ∈ pre, objGet wv (pathStr b) = none) :
    ConfigStore.firstBound wv (pre ++ rest) = ConfigStore.firstBound wv rest := by
  induction pre with
  | nil => rfl
  | cons b bs ih =>
    have hb := h b (by simp)
    simp only [List.cons_append, ConfigStore.firstBound, hb]
    exact ih (fun x hx => h x (by simp [hx]))

theorem firstBound_none (wv : List (Str × Json)) (l : List FsPath)
    (h : ∀ b ∈ l, objGet wv (pathStr b) = none) :
    ConfigStore.firstBound wv l = none := by
  have := firstBound_append wv l [] h
  simpa [ConfigStore.firstBound] using this

/-- C2: vault resolution walks the workspace and its ancestors deepest
first and returns the first bound vault (so the deepest bound ancestor
wins), falls back to the default vault when no ancestor is bound, fails
with the no-saved-vault error when there is no default either, and on the
two-binding example resolves /a/b/c to V2 and /a/x to V1. -/
theorem c2_resolve_vault_deepest_ancestor
    (d : Str) (wv : List (Str × Json)) (w : FsPath)
    (pre post : List FsPath) (a : FsPath) (v : Json)
    (hsplit : ancestorChain w = pre ++ a :: post)
    (hpre : ∀ b ∈ pre, objGet wv (pathStr b) = none)
    (ha : objGet wv (pathStr a) = some v) :
    ConfigStore.resolve_vault (mkVaultState d wv) (some w) = .ok v
    ∧ (∀ (w' : FsPath), (∀ b ∈ ancestorChain w', objGet wv (pathStr b) = none) →
        ConfigStore.resolve_vault (mkVaultState d wv) (some w') = .ok (.str d))
    ∧ (∀ (w' : FsPath), (∀ b ∈ ancestorChain w', objGet wv (pathStr b) = none) →
        resolve_vault_or_exit (mkVaultState [] wv) (some w')
          = .error "No saved vault for this workspace".data)
    ∧ (ConfigStore.resolve_vault
        (mkVaultState d [(pathStr ["a".data], .str "V1".data),
                         (pathStr ["a".data, "b".data], .str "V2".data)])
        (some ["a".data, "b".data, "c".data]) = .ok (.str "V2".data)
      ∧ ConfigStore.resolve_vault
        (mkVaultState d [(pathStr ["a".data], .str "V1".data),
                         (pathStr ["a".data, "b".data], .str "V2".data)])
        (some ["a".data, "x".data]) = .ok (.str "V1".data)) := by
  refine ⟨?_, ?_, ?_, by rfl, by rfl⟩
  · rw [resolve_vault_mkVaultState, hsplit, firstBound_append wv pre _ hpre]
    simp [ConfigStore.firstBound, ha]
  · intro w' h'
    rw [resolve_vault_mkVaultState, firstBound_none wv _ h']
  · intro w' h'
    have hr := resolve_vault_mkVaultState [] wv w'
    rw [firstBound_none wv _ h'] at hr
    unfold resolve_vault_or_exit
    rw [hr]
    rfl

theorem c2_resolve_vault_deepest_ancestor_witness :
    ConfigStore.resolve_vault
      (mkVaultState "D".data [(pathStr ["a".data], .str "V1".data),
                              (pathStr ["a".data, "b".data], .str "V2".data)])
      (some ["a".data, "b".data, "c".data]) = .ok (.str "V2".data) :=
  (c2_resolve_vault_deepest_ancestor "D".data
    [(pathStr ["a".data], .str "V1".data), (pathStr ["a".data, "b".data], .str "V2".data)]
    ["a".data, "b".data, "c".data]
    [["a".data, "b".data, "c".data]] [["a".data], []] ["a".data, "b".data] (.str "V2".data)
    (by rfl)
    (by
      intro b hb
      simp only [List.mem_singleton] at hb
      subst hb
      rfl)
    (by rfl)).1

/-! ## The vault executor -/

theorem vaultGet_append_self (v₀ : Vault) (p c : Str) (h : vaultGet v₀ p = none) :
    vaultGet (v₀ ++ [(p, c)]) p = some c := by
  induction v₀ with
  | nil => simp [vaultGet]
  | cons hd tl ih =>
    obtain ⟨q, d⟩ := hd
    by_cases hq : q = p
    · subst hq
      simp [vaultGet] at h
    · simp only [vaultGet, List.cons_append, if_neg hq] at h ⊢
      exact ih h

/-- C3: ensure_note is idempotent.  When a note already exists at the
path, the call reports the exists outcome, issues no external command and
leaves the vault (hence the note content) unchanged; and after a creating
call, a second call with the same path reports the exists outcome and
leaves the created content in place. -/
theorem c3_ensure_note_idempotent (v : Vault) (p content existing : Str)
    (h : vaultGet v p = some existing) :
    ensure_note v p content = (v, [], "exists:".data ++ p)
    ∧ (∀ (v₀ : Vault) (c₀ : Str), vaultGet v₀ p = none →
        ensure_note (ensure_note v₀ p c₀).1 p c₀
          = ((ensure_note v₀ p c₀).1, [], "exists:".data ++ p)
        ∧ vaultGet (ensure_note v₀ p c₀).1 p = some c₀) := by
  constructor
  · unfold ensure_note
    rw [h]
  · intro v₀ c₀ h₀
    have e1 : ensure_note v₀ p c₀ = (v₀ ++ [(p, c₀)], [CliCmd.create p c₀], []) := by
      unfold ensure_note
      rw [h₀]
    have hg : vaultGet (v₀ ++ [(p, c₀)]) p = some c₀ := vaultGet_append_self v₀ p c₀ h₀
    refine ⟨?_, by rw [e1]; exact hg⟩
    rw [e1]
    unfold ensure_note
    rw [hg]

theorem c3_ensure_note_idempotent_witness :
    ensure_note [("a.md".data, "x".data)] "a.md".data "y".data
      = ([("a.md".data, "x".data)], [], "exists:".data ++ "a.md".data) :=
  (c3_ensure_note_idempotent [("a.md".data, "x".data)] "a.md".data "y".data "x".data rfl).1

/-! ## Lemmas about run collapsing and stripping -/

theorem collapseRuns_cons_keep (keep : Char → Bool) (sep : Char) (flag : Bool)
    (a : Char) (rest : Str) (hk : keep a = true) :
    collapseRuns keep sep flag (a :: rest) = a :: collapseRuns keep sep false rest := by
  simp [collapseRuns, hk]

theorem collapseRuns_cons_skip (keep : Char → Bool) (sep : Char)
    (a : Char) (rest : Str) (hk : keep a = false) :
    collapseRuns keep sep true (a :: rest) = collapseRuns keep sep true rest := by
  simp [collapseRuns, hk]

theorem collapseRuns_cons_emit (keep : Char → Bool) (sep : Char)
    (a : Char) (rest : Str) (hk : keep a = false) :
    collapseRuns keep sep false (a :: rest) = sep :: collapseRuns keep sep true rest := by
  simp [collapseRuns, hk]

theorem collapseRuns_mem (keep : Char → Bool) (sep : Char) :
    ∀ (l : Str) (flag : Bool) (c : Char), c ∈ collapseRuns keep sep flag l →
      (keep c = true ∧ c ∈ l) ∨ c = sep := by
  intro l
  induction l with
  | nil =>
    intro flag c hc
    simp [collapseRuns] at hc
  | cons a rest ih =>
    intro flag c hc
    by_cases hk : keep a = true
    · rw [collapseRuns_cons_keep keep sep flag a rest hk] at hc
      rcases List.mem_cons.mp hc with h | h
      · subst h
        exact .inl ⟨hk, by simp⟩
      · rcases ih false c h with ⟨h1, h2⟩ | h1
        · exact .inl ⟨h1, by simp [h2]⟩
        · exact .inr h1
    · have hkf : keep a = false := by revert hk; cases keep a <;> simp
      cases flag with
      | true =>
        rw [collapseRuns_cons_skip keep sep a rest hkf] at hc
        rcases ih true c hc with ⟨h1, h2⟩ | h1
        · exact .inl ⟨h1, by simp [h2]⟩
        · exact .inr h1
      | false =>
        rw [collapseRuns_cons_emit keep sep a rest hkf] at hc
        rcases List.mem_cons.mp hc with h | h
        · exact .inr h
        · rcases ih true c h with ⟨h1, h2⟩ | h1
          · exact .inl ⟨h1, by simp [h2]⟩
          · exact .inr h1

theorem collapseRuns_head_true (keep : Char → Bool) (sep : Char) :
    ∀ (l : Str) (c : Char), (collapseRuns keep sep true l).head? = some c → keep c = true := by
  intro l
  induction l with
  | nil =>
    intro c hc
    simp [collapseRuns] at hc
  | cons a rest ih =>
    intro c hc
    by_cases hk : keep a = true
    · rw [collapseRuns_cons_keep keep sep true a rest hk] at hc
      simp only [List.head?_cons, Option.some.injEq] at hc
      subst hc
      exact hk
    · have hkf : keep a = false := by revert hk; cases keep a <;> simp
      rw [collapseRuns_cons_skip keep sep a rest hkf] at hc
      exact ih c hc

theorem collapseRuns_chain (keep : Char → Bool) (sep : Char) (hsep : keep sep = false) :
    ∀ (l : Str) (flag : Bool),
      List.Chain' (fun a b => ¬(a = sep ∧ b = sep)) (collapseRuns keep sep flag l) := by
  intro l
  induction l with
  | nil =>
    intro flag
    simp [collapseRuns]
  | cons a rest ih =>
    intro flag
    by_cases hk : keep a = true
    · rw [collapseRuns_cons_keep keep sep flag a rest hk]
      rw [List.chain'_cons']
      refine ⟨?_, ih false⟩
      intro b _ hab
      rw [hab.1] at hk
      rw [hk] at hsep
      exact Bool.noConfusion hsep
    · have hkf : keep a = false := by revert hk; cases keep a <;> simp
      cases flag with
      | true =>
        rw [collapseRuns_cons_skip keep sep a rest hkf]
        exact ih true
      | false =>
        rw [collapseRuns_cons_emit keep sep a rest hkf]
        rw [List.chain'_cons']
        refine ⟨?_, ih true⟩
        intro b hb hab
        have hbk : keep b = true :=
          collapseRuns_head_true keep sep rest b (Option.mem_def.mp hb)
        rw [hab.2] at hbk
        rw [hbk] at hsep
        exact Bool.noConfusion hsep

theorem collapseRuns_fix (keep : Char → Bool) (sep : Char) (hsep : keep sep = false) :
    ∀ (l : Str), (∀ c ∈ l, keep c = true ∨ c = sep) →
      List.Chain' (fun a b => ¬(a = sep ∧ b = sep)) l →
      collapseRuns keep sep false l = l
        ∧ (l.head? ≠ some sep → collapseRuns keep sep true l = l) := by
  intro l
  induction l with
  | nil => exact fun _ _ => ⟨rfl, fun _ => rfl⟩
  | cons a rest ih =>
    intro hmem hch
    have hmem' : ∀ c ∈ rest, keep c = true ∨ c = sep :=
      fun c hc => hmem c (List.mem_cons_of_mem a hc)
    have hch' : List.Chain' (fun a b => ¬(a = sep ∧ b = sep)) rest :=
      (List.chain'_cons'.mp hch).2
    rcases hmem a (by simp) with hk | hsepa
    · have hrest := (ih hmem' hch').1
      refine ⟨?_, fun _ => ?_⟩
      · rw [collapseRuns_cons_keep keep sep false a rest hk, hrest]
      · rw [collapseRuns_cons_keep keep sep true a rest hk, hrest]
    · subst hsepa
      have hne : rest.head? ≠ some a := by
        intro heq
        exact (List.chain'_cons'.mp hch).1 a (by simp [heq]) ⟨rfl, rfl⟩
      have htrue := (ih hmem' hch').2 hne
      refine ⟨?_, fun hne2 => absurd rfl hne2⟩
      rw [collapseRuns_cons_emit keep a a rest hsep, htrue]

theorem dropWhile_eq_self_of_head (p : Char → Bool) (l : Str)
    (h : ∀ c, l.head? = some c → p c = false) : l.dropWhile p = l := by
  cases l with
  | nil => rfl
  | cons a rest =>
    have := h a rfl
    simp [List.dropWhile, this]

theorem head_dropWhile_false (p : Char → Bool) :
    ∀ (l : Str) (c : Char), (l.dropWhile p).head? = some c → p c = false := by
  intro l
  induction l with
  | nil =>
    intro c hc
    simp [List.dropWhile] at hc
  | cons a rest ih =>
    intro c hc
    by_cases hp : p a = true
    · rw [List.dropWhile_cons_of_pos hp] at hc
      exact ih c hc
    · have hpf : p a = false := by revert hp; cases p a <;> simp
      rw [List.dropWhile_cons_of_neg (by simp [hpf])] at hc
      simp only [List.head?_cons, Option.some.injEq] at hc
      subst hc
      exact hpf

theorem pyStrip_mem (p : Char → Bool) (l : Str) (c : Char) (h : c ∈ pyStrip p l) : c ∈ l := by
  unfold pyStrip at h
  rw [List.mem_reverse] at h
  have h1 := (List.dropWhile_sublist p).subset h
  rw [List.mem_reverse] at h1
  exact (List.dropWhile_sublist p).subset h1

theorem chain_symm_dash {sep : Char} {l : Str}
    (h : List.Chain' (fun a b => ¬(a = sep ∧ b = sep)) l) :
    List.Chain' (fun a b => ¬(a = sep ∧ b = sep)) l.reverse := by
  rw [List.chain'_reverse]
  exact h.imp (fun a b hab ⟨h1, h2⟩ => hab ⟨h2, h1⟩)

theorem pyStrip_chain (p : Char → Bool) (sep : Char) (l : Str)
    (h : List.Chain' (fun a b => ¬(a = sep ∧ b = sep)) l) :
    List.Chain' (fun a b => ¬(a = sep ∧ b = sep)) (pyStrip p l) := by
  unfold pyStrip
  exact chain_symm_dash ((chain_symm_dash (h.suffix (List.dropWhile_suffix p))).suffix
    (List.dropWhile_suffix p))

theorem pyStrip_head_false (p : Char → Bool) (l : Str) (c : Char)
    (h : (pyStrip p l).head? = some c) : p c = false := by
  unfold pyStrip at h
  rw [List.head?_reverse] at h
  set B := (l.dropWhile p).reverse.dropWhile p with hB
  have hBne : B ≠ [] := by
    intro hnil
    rw [hnil] at h
    exact Option.noConfusion h
  obtain ⟨t, ht⟩ := List.dropWhile_suffix (l := (l.dropWhile p).reverse) p
  rw [← hB] at ht
  have h2 : B.getLast? = (l.dropWhile p).reverse.getLast? := by
    rw [← ht]
    exact (List.getLast?_append_of_ne_nil t hBne).symm
  rw [h2, List.getLast?_reverse] at h
  exact head_dropWhile_false p l c h

theorem pyStrip_getLast_false (p : Char → Bool) (l : Str) (c : Char)
    (h : (pyStrip p l).getLast? = some c) : p c = false := by
  unfold pyStrip at h
  rw [List.getLast?_reverse] at h
  exact head_dropWhile_false p (l.dropWhile p).reverse c h

theorem pyStrip_eq_self (p : Char → Bool) (l : Str)
    (h1 : ∀ c, l.head? = some c → p c = false)
    (h2 : ∀ c, l.getLast? = some c → p c = false) : pyStrip p l = l := by
  unfold pyStrip
  rw [dropWhile_eq_self_of_head p l h1]
  rw [dropWhile_eq_self_of_head p l.reverse
    (fun c hc => h2 c (by rwa [List.head?_reverse] at hc))]
  exact List.reverse_reverse l

/-! ## Character class facts -/

theorem lowerChar_fix (c : Char) (h : isLowerAlnum c = true ∨ c = '-') : lowerChar c = c := by
  rcases h with h | h
  · simp only [isLowerAlnum, Bool.or_eq_true, Bool.and_eq_true, decide_eq_true_eq] at h
    unfold lowerChar
    have hcond : ¬((65 ≤ c.toNat && c.toNat ≤ 90) = true) := by
      simp only [Bool.and_eq_true, decide_eq_true_eq]
      omega
    rw [if_neg hcond]
  · subst h
    rfl

theorem char_not_ws (c : Char) (h : isLowerAlnum c = true ∨ c = '-') : isWs c = false := by
  rcases h with h | h
  · simp only [isLowerAlnum, Bool.or_eq_true, Bool.and_eq_true, decide_eq_true_eq] at h
    rw [← Bool.not_eq_true]
    simp only [isWs, Bool.or_eq_true, decide_eq_true_eq]
    omega
  · subst h
    rfl

theorem map_eq_self_of_mem (f : Char → Char) (l : Str) (h : ∀ c ∈ l, f c = c) :
    l.map f = l := by
  have := List.map_congr_left (g := id) h
  simpa using this

/-- The unfolding of slugify into its four stages. -/
theorem slugify_eq (s : Str) :
    slugify s = pyStrip (fun c => c == '-')
      (collapseRuns (fun c => !(c == '-')) '-' false
        (collapseRuns isLowerAlnum '-' false ((pyStrip isWs s).map lowerChar))) := rfl

theorem slugify_chars (s : Str) : ∀ c ∈ slugify s, isLowerAlnum c = true ∨ c = '-' := by
  intro c hc
  rw [slugify_eq] at hc
  have h3 := pyStrip_mem _ _ _ hc
  rcases collapseRuns_mem _ '-' _ _ _ h3 with ⟨_, hmem2⟩ | hdash
  · rcases collapseRuns_mem isLowerAlnum '-' _ _ _ hmem2 with ⟨hk2, _⟩ | hdash2
    · exact .inl hk2
    · exact .inr hdash2
  · exact .inr hdash

theorem slugify_chain (s : Str) :
    List.Chain' (fun a b => ¬(a = '-' ∧ b = '-')) (slugify s) := by
  rw [slugify_eq]
  exact pyStrip_chain _ '-' _ (collapseRuns_chain _ '-' (by decide) _ false)

theorem slugify_head_ne (s : Str) : (slugify s).head? ≠ some '-' := by
  intro heq
  have := pyStrip_head_false (fun c => c == '-') _ '-' ((slugify_eq s) ▸ heq)
  exact absurd this (by decide)

theorem slugify_getLast_ne (s : Str) : (slugify s).getLast? ≠ some '-' := by
  intro heq
  have := pyStrip_getLast_false (fun c => c == '-') _ '-' ((slugify_eq s) ▸ heq)
  exact absurd this (by decide)

/-- C9: slugify is deterministic (it is a function) and idempotent, its
output uses only lowercase alphanumerics and single separating hyphens
with no boundary hyphen, and the documented example collapses repeated
separators and trims. -/
theorem c9_slugify_idempotent :
    (∀ s : Str, slugify (slugify s) = slugify s)
    ∧ slugify "  Mixed__Chars!! ".data = "mixed-chars".data
    ∧ (∀ s : Str, ∀ c ∈ slugify s, isLowerAlnum c = true ∨ c = '-')
    ∧ (∀ s : Str, (slugify s).head? ≠ some '-' ∧ (slugify s).getLast? ≠ some '-') := by
  refine ⟨?_, by decide, slugify_chars, fun s => ⟨slugify_head_ne s, slugify_getLast_ne s⟩⟩
  intro s
  have hmemy : ∀ c ∈ slugify s, isLowerAlnum c = true ∨ c = '-' := slugify_chars s
  have h1 : pyStrip isWs (slugify s) = slugify s := by
    refine pyStrip_eq_self _ _ (fun c hc => ?_) (fun c hc => ?_)
    · exact char_not_ws c (hmemy c (List.mem_of_mem_head? (Option.mem_def.mpr hc)))
    · refine char_not_ws c (hmemy c ?_)
      rw [← List.mem_reverse]
      exact List.mem_of_mem_head? (Option.mem_def.mpr (by rw [List.head?_reverse]; exact hc))
  have h2 : (slugify s).map lowerChar = slugify s :=
    map_eq_self_of_mem _ _ (fun c hc => lowerChar_fix c (hmemy c hc))
  have h3 : collapseRuns isLowerAlnum '-' false (slugify s) = slugify s :=
    (collapseRuns_fix isLowerAlnum '-' (by decide) _ hmemy (slugify_chain s)).1
  have h4 : collapseRuns (fun c => !(c == '-')) '-' false (slugify s) = slugify s := by
    refine (collapseRuns_fix (fun c => !(c == '-')) '-' (by decide) _ ?_ (slugify_chain s)).1
    intro c _
    by_cases hd : c = '-'
    · exact .inr hd
    · exact .inl (by simp [hd])
  have h5 : pyStrip (fun c => c == '-') (slugify s) = slugify s := by
    refine pyStrip_eq_self _ _ (fun c hc => ?_) (fun c hc => ?_)
    · rw [← Bool.not_eq_true]
      simp only [beq_iff_eq]
      intro hcd
      subst hcd
      exact slugify_head_ne s hc
    · rw [← Bool.not_eq_true]
      simp only [beq_iff_eq]
      intro hcd
      subst hcd
      exact slugify_getLast_ne s hc
  calc slugify (slugify s)
      = pyStrip (fun c => c == '-')
          (collapseRuns (fun c => !(c == '-')) '-' false
            (collapseRuns isLowerAlnum '-' false
              ((pyStrip isWs (slugify s)).map lowerChar))) := slugify_eq _
    _ = slugify s := by rw [h1, h2, h3, h4, h5]

/-! ## Truncation and extractor bounds -/

theorem truncate_eq_def (s : Str) (limit : Nat) :
    truncate s limit = if (collapseWs s).length ≤ limit then collapseWs s
      else pyRStrip isWs ((collapseWs s).take (limit - 3)) ++ "...".data := rfl

theorem pyRStrip_length_le (p : Char → Bool) (l : Str) : (pyRStrip p l).length ≤ l.length := by
  unfold pyRStrip
  rw [List.length_reverse]
  calc (l.reverse.dropWhile p).length ≤ l.reverse.length :=
        (List.dropWhile_sublist p).length_le
    _ = l.length := List.length_reverse l

theorem truncate_length_le (s : Str) (limit : Nat) (h3 : 3 ≤ limit) :
    (truncate s limit).length ≤ limit := by
  rw [truncate_eq_def]
  by_cases h : (collapseWs s).length ≤ limit
  · rw [if_pos h]
    exact h
  · rw [if_neg h, List.length_append]
    have h1 := pyRStrip_length_le isWs ((collapseWs s).take (limit - 3))
    have h2 : ((collapseWs s).take (limit - 3)).length ≤ limit - 3 := by
      rw [List.length_take]
      exact min_le_left _ _
    have h4 : ("...".data).length = 3 := by decide
    omega

theorem truncate_ellipsis (s : Str) (limit : Nat) (h : limit < (collapseWs s).length) :
    "...".data <:+ truncate s limit := by
  rw [truncate_eq_def, if_neg (by omega)]
  exact ⟨pyRStrip isWs ((collapseWs s).take (limit - 3)), rfl⟩

theorem truncate_of_short (s : Str) (limit : Nat) (h : (collapseWs s).length ≤ limit) :
    truncate s limit = collapseWs s := by
  rw [truncate_eq_def, if_pos h]

theorem codex_prompt_shape (fields : List (Str × Json)) :
    (∃ s, Codex.extract_prompt fields = truncate s 3000)
      ∨ Codex.extract_prompt fields = sentinelPrompt := by
  unfold Codex.extract_prompt
  split
  · next msgs _ =>
      by_cases hj : (joinParts (msgs.filterMap Codex.msgText)).isEmpty = true
      · exact .inr (by simp [hj])
      · exact .inl ⟨joinParts (msgs.filterMap Codex.msgText), by simp [hj]⟩
  · exact .inr rfl

theorem codex_summary_shape (fields : List (Str × Json)) :
    (∃ s, Codex.extract_summary fields = truncate s 500)
      ∨ Codex.extract_summary fields = sentinelSummary := by
  unfold Codex.extract_summary
  split
  · next v _ =>
      by_cases hb : strBlank v = true
      · exact .inr (by simp [hb])
      · exact .inl ⟨v, by simp [hb]⟩
  · exact .inr rfl

theorem claude_prompt_shape (fields : List (Str × Json)) :
    ∃ s, ClaudeSchema.extract_prompt fields = truncate s 3000 := by
  unfold ClaudeSchema.extract_prompt
  split
  · exact ⟨_, rfl⟩
  · exact ⟨_, rfl⟩

theorem claude_summary_shape (fields : List (Str × Json)) :
    ∃ s, ClaudeSchema.extract_summary fields = truncate s 500 := by
  unfold ClaudeSchema.extract_summary
  split
  · exact ⟨_, rfl⟩
  · split
    · split
      · exact ⟨_, rfl⟩
      · exact ⟨_, rfl⟩
    · exact ⟨_, rfl⟩

theorem cursor_prompt_shape (fields : List (Str × Json)) :
    ∃ s, Cursor.extract_prompt fields = truncate s 3000 :=
  ⟨_, rfl⟩

theorem cursor_summary_shape (fields : List (Str × Json)) :
    ∃ s, Cursor.extract_summary fields = truncate s 500 := by
  unfold Cursor.extract_summary Cursor.summaryFallback
  split
  · exact ⟨_, rfl⟩
  · split
    · split
      · exact ⟨_, rfl⟩
      · split
        · split
          · exact ⟨_, rfl⟩
          · exact ⟨_, rfl⟩
        · exact ⟨_, rfl⟩
    · exact ⟨_, rfl⟩

theorem antigravity_prompt_shape (fields : List (Str × Json)) :
    ∃ s, Antigravity.extract_prompt fields = truncate s 3000 :=
  ⟨_, rfl⟩

theorem antigravity_summary_shape (fields : List (Str × Json)) :
    ∃ s, Antigravity.extract_summary fields = truncate s 500 := by
  unfold Antigravity.extract_summary
  split
  · exact ⟨_, rfl⟩
  · exact ⟨_, rfl⟩

theorem codex_prompt_sentinel (fields : List (Str × Json))
    (h : objGet fields "input-messages".data = none) :
    Codex.extract_prompt fields = sentinelPrompt := by
  unfold Codex.extract_prompt
  rw [h]

theorem codex_summary_sentinel (fields : List (Str × Json))
    (h : objGet fields "last-assistant-message".data = none) :
    Codex.extract_summary fields = sentinelSummary := by
  unfold Codex.extract_summary
  rw [h]

theorem claude_prompt_sentinel (fields : List (Str × Json))
    (h1 : firstStrField fields
      ["prompt".data, "user_prompt".data, "message".data, "input".data] = none)
    (h2 : firstDictList fields ClaudeSchema.msgKeys = []) :
    ClaudeSchema.extract_prompt fields = sentinelPrompt := by
  unfold ClaudeSchema.extract_prompt
  rw [h1, h2]
  rfl

theorem claude_summary_sentinel (fields : List (Str × Json))
    (h1 : firstStrField fields
      ["last_assistant_message".data, "assistant".data, "response".data,
       "output".data, "tool_response".data] = none)
    (h2 : objGet fields "tool_name".data = none)
    (h3 : firstDictList fields ClaudeSchema.msgKeys = []) :
    ClaudeSchema.extract_summary fields = sentinelSummary := by
  unfold ClaudeSchema.extract_summary ClaudeSchema.assistantPartsClaude
  rw [h1, h2, h3]
  rfl

theorem cursor_prompt_sentinel (fields : List (Str × Json))
    (h1 : firstDictList fields Cursor.msgKeys = [])
    (h2 : objGet fields "prompt".data = none)
    (h3 : objGet fields "summary".data = none) :
    Cursor.extract_prompt fields = sentinelPrompt := by
  unfold Cursor.extract_prompt
  rw [h1, h2, h3]
  rfl

theorem cursor_summary_sentinel (fields : List (Str × Json))
    (h1 : firstStrField fields
      ["assistant_message".data, "last_assistant_message".data,
       "response".data, "output".data] = none)
    (h2 : objGet fields "summary".data = none)
    (h3 : firstDictList fields Cursor.msgKeys = []) :
    Cursor.extract_summary fields = sentinelSummary := by
  unfold Cursor.extract_summary Cursor.summaryFallback
  rw [h1, h2, h3]
  rfl

theorem antigravity_prompt_sentinel (fields : List (Str × Json))
    (h1 : firstDictList fields Antigravity.msgKeys = [])
    (h2 : objGet fields "prompt".data = none) :
    Antigravity.extract_prompt fields = sentinelPrompt := by
  unfold Antigravity.extract_prompt
  rw [h1, h2]
  rfl

theorem antigravity_summary_sentinel (fields : List (Str × Json))
    (h1 : firstStrField fields
      ["assistant".data, "assistant_message".data, "last_assistant_message".data,
       "output".data, "response".data] = none)
    (h2 : firstDictList fields Antigravity.msgKeys = []) :
    Antigravity.extract_summary fields = sentinelSummary := by
  unfold Antigravity.extract_summary
  rw [h1, h2]
  rfl

/-- C6: truncate caps its output at the limit and marks overlong collapsed
input with a trailing three-dot marker; each schema returns the fixed
sentinel strings when its prompt or summary sources are absent, and every
extractor output is either the sentinel or a truncation at the schema cap
(3000 for prompts, 500 for summaries), so its length never exceeds the
cap. -/
theorem c6_sentinels_and_truncation :
    (∀ (s : Str) (limit : Nat), 3 ≤ limit → (truncate s limit).length ≤ limit)
    ∧ (∀ (s : Str) (limit : Nat), limit < (collapseWs s).length →
        "...".data <:+ truncate s limit)
    ∧ (∀ (s : Str) (limit : Nat), (collapseWs s).length ≤ limit →
        truncate s limit = collapseWs s)
    ∧ (∀ fields, objGet fields "input-messages".data = none →
        Codex.extract_prompt fields = sentinelPrompt)
    ∧ (∀ fields, objGet fields "last-assistant-message".data = none →
        Codex.extract_summary fields = sentinelSummary)
    ∧ (∀ fields, firstStrField fields
          ["prompt".data, "user_prompt".data, "message".data, "input".data] = none →
        firstDictList fields ClaudeSchema.msgKeys = [] →
        ClaudeSchema.extract_prompt fields = sentinelPrompt)
    ∧ (∀ fields, firstStrField fields
          ["last_assistant_message".data, "assistant".data, "response".data,
           "output".data, "tool_response".data] = none →
        objGet fields "tool_name".data = none →
        firstDictList fields ClaudeSchema.msgKeys = [] →
        ClaudeSchema.extract_summary fields = sentinelSummary)
    ∧ (∀ fields, firstDictList fields Cursor.msgKeys = [] →
        objGet fields "prompt".data = none → objGet fields "summary".data = none →
        Cursor.extract_prompt fields = sentinelPrompt)
    ∧ (∀ fields, firstStrField fields
          ["assistant_message".data, "last_assistant_message".data,
           "response".data, "output".data] = none →
        objGet fields "summary".data = none →
        firstDictList fields Cursor.msgKeys = [] →
        Cursor.extract_summary fields = sentinelSummary)
    ∧ (∀ fields, firstDictList fields Antigravity.msgKeys = [] →
        objGet fields "prompt".data = none →
        Antigravity.extract_prompt fields = sentinelPrompt)
    ∧ (∀ fields, firstStrField fields
          ["assistant".data, "assistant_message".data, "last_assistant_message".data,
           "output".data, "response".data] = none →
        firstDictList fields Antigravity.msgKeys = [] →
        Antigravity.extract_summary fields = sentinelSummary)
    ∧ (∀ fields,
        (Codex.extract_prompt fields).length ≤ 3000
        ∧ (ClaudeSchema.extract_prompt fields).length ≤ 3000
        ∧ (Cursor.extract_prompt fields).length ≤ 3000
        ∧ (Antigravity.extract_prompt fields).length ≤ 3000
        ∧ (Codex.extract_summary fields).length ≤ 500
        ∧ (ClaudeSchema.extract_summary fields).length ≤ 500
        ∧ (Cursor.extract_summary fields).length ≤ 500
        ∧ (Antigravity.extract_summary fields).length ≤ 500) := by
  have hsp : sentinelPrompt.length ≤ 3000 := by decide
  have hss : sentinelSummary.length ≤ 500 := by decide
  refine ⟨truncate_length_le, truncate_ellipsis, truncate_of_short,
    codex_prompt_sentinel, codex_summary_sentinel, claude_prompt_sentinel,
    claude_summary_sentinel, cursor_prompt_sentinel, cursor_summary_sentinel,
    antigravity_prompt_sentinel, antigravity_summary_sentinel, ?_⟩
  intro fields
  refine ⟨?_, ?_, ?_, ?_, ?_, ?_, ?_, ?_⟩
  · rcases codex_prompt_shape fields with ⟨s, e⟩ | e
    · rw [e]
      exact truncate_length_le s 3000 (by decide)
    · rw [e]
      exact hsp
  · obtain ⟨s, e⟩ := claude_prompt_shape fields
    rw [e]
    exact truncate_length_le s 3000 (by decide)
  · obtain ⟨s, e⟩ := cursor_prompt_shape fields
    rw [e]
    exact truncate_length_le s 3000 (by decide)
  · obtain ⟨s, e⟩ := antigravity_prompt_shape fields
    rw [e]
    exact truncate_length_le s 3000 (by decide)
  · rcases codex_summary_shape fields with ⟨s, e⟩ | e
    · rw [e]
      exact truncate_length_le s 500 (by decide)
    · rw [e]
      exact hss
  · obtain ⟨s, e⟩ := claude_summary_shape fields
    rw [e]
    exact truncate_length_le s 500 (by decide)
  · obtain ⟨s, e⟩ := cursor_summary_shape fields
    rw [e]
    exact truncate_length_le s 500 (by decide)
  · obtain ⟨s, e⟩ := antigravity_summary_shape fields
    rw [e]
    exact truncate_length_le s 500 (by decide)

theorem c6_sentinels_and_truncation_witness :
    (truncate "abcdefgh".data 5).length ≤ 5
    ∧ ("...".data <:+ truncate "abcdefgh".data 5)
    ∧ Codex.extract_prompt [] = sentinelPrompt
    ∧ ClaudeSchema.extract_summary [] = sentinelSummary
    ∧ Cursor.extract_prompt [] = sentinelPrompt :=
  ⟨(c6_sentinels_and_truncation).1 "abcdefgh".data 5 (by decide),
   (c6_sentinels_and_truncation).2.1 "abcdefgh".data 5 (by decide),
   (c6_sentinels_and_truncation).2.2.2.1 [] rfl,
   (c6_sentinels_and_truncation).2.2.2.2.2.2.1 [] rfl rfl rfl,
   (c6_sentinels_and_truncation).2.2.2.2.2.2.2.1 [] rfl rfl rfl⟩

/-! ## Role filtering in the prompt extractors -/

theorem filterMap_eq_filterMap_filter (f : Json → Option Str) (p : Json → Bool)
    (hf : ∀ m, p m = false → f m = none) :
    ∀ msgs : List Json, msgs.filterMap f = (msgs.filter p).filterMap f := by
  intro msgs
  induction msgs with
  | nil => rfl
  | cons m rest ih =>
    by_cases hp : p m = true
    · rw [List.filter_cons_of_pos hp, List.filterMap_cons, List.filterMap_cons, ih]
    · have hpf : p m = false := by revert hp; cases p m <;> simp
      rw [List.filter_cons_of_neg (by simp [hpf]), List.filterMap_cons, hf m hpf, ih]

/-- C8 counterexample: the Codex extract_prompt returns the content of a
message whose role is assistant, so assistant content does appear in the
extracted prompt of the Codex schema. -/
theorem c8_counterexample_codex_assistant_content :
    Codex.extract_prompt
      [("input-messages".data, .arr [.obj
        [("role".data, .str "assistant".data),
         ("content".data, .str "assistant reply".data)]])]
      = "assistant reply".data
    ∧ "assistant reply".data ≠ sentinelPrompt := by
  constructor
  · decide
  · decide

/-- C8 amended: in the Cursor, Antigravity and Claude schemas the message
scan of extract_prompt collects content only from messages whose role (or
author, where consulted) is user or human — dropping all other messages
changes nothing — while the Codex schema appends the flattened content of
every dictionary message regardless of its role. -/
theorem c8_user_role_filtering :
    (∀ msgs : List Json, userParts msgs
        = userParts (msgs.filter (fun m => match m with
            | .obj mf => isUserRole (roleOrAuthor mf)
            | _ => false)))
    ∧ (∀ msgs : List Json, msgs.filterMap (fun m => match m with
          | .obj mf =>
            if isUserRole (claudeRole mf)
            then some (content_to_text ((objGet mf "content".data).getD .null))
            else none
          | _ => none)
        = (msgs.filter (fun m => match m with
            | .obj mf => isUserRole (claudeRole mf)
            | _ => false)).filterMap (fun m => match m with
          | .obj mf =>
            if isUserRole (claudeRole mf)
            then some (content_to_text ((objGet mf "content".data).getD .null))
            else none
          | _ => none))
    ∧ (∀ mf : List (Str × Json), Codex.msgText (.obj mf)
        = some (content_to_text ((objGet mf "content".data).getD .null))) := by
  refine ⟨?_, ?_, ?_⟩
  · intro msgs
    unfold userParts
    apply filterMap_eq_filterMap_filter
    intro m hm
    cases m with
    | obj mf =>
      simp only at hm
      simp [hm]
    | null => rfl
    | bool b => rfl
    | num n => rfl
    | str s => rfl
    | arr xs => rfl
  · intro msgs
    apply filterMap_eq_filterMap_filter
    intro m hm
    cases m with
    | obj mf =>
      simp only at hm
      simp [hm]
    | null => rfl
    | bool b => rfl
    | num n => rfl
    | str s => rfl
    | arr xs => rfl
  · intro mf
    unfold Codex.msgText
    exact ite_self _

/-! ## Signature verification -/

theorem validate_signature_eq (env : Cursor.Env) (raw : Str) (fields : List (Str × Json)) :
    Cursor.validate_signature env raw fields =
      (if (pyStrip isWs (env.webhookSecret.getD [])).isEmpty then true
       else if (Cursor.extract_signature env fields).isEmpty then false
       else ((if (Cursor.extract_signature env fields).take 7 == "sha256=".data
              then (Cursor.extract_signature env fields).drop 7
              else Cursor.extract_signature env fields)
             == hmacSha256Hex (utf8Encode (pyStrip isWs (env.webhookSecret.getD [])))
                  (utf8Encode raw))) := rfl

set_option maxRecDepth 400000 in
/-- C4: with no configured secret every payload is accepted; with a secret,
verification succeeds exactly when a signature was extracted and, after
stripping an optional sha256= tag, it equals the hex HMAC-SHA256 of the
raw payload under the secret; concretely, the correct signature for a
fixed payload and secret is accepted while a one-character change to the
signature, a one-byte change to the payload, and a missing signature are
all rejected, and with no secret even an unsigned payload passes.
(hmac.compare_digest is functionally an equality; its timing behaviour is
outside the model.) -/
theorem c4_signature_verification :
    (∀ (env : Cursor.Env) (raw : Str) (fields : List (Str × Json)),
        pyStrip isWs (env.webhookSecret.getD []) = [] →
        Cursor.validate_signature env raw fields = true)
    ∧ (∀ (env : Cursor.Env) (raw : Str) (fields : List (Str × Json)),
        pyStrip isWs (env.webhookSecret.getD []) ≠ [] →
        (Cursor.validate_signature env raw fields = true ↔
          (Cursor.extract_signature env fields ≠ []
            ∧ (if (Cursor.extract_signature env fields).take 7 == "sha256=".data
               then (Cursor.extract_signature env fields).drop 7
               else Cursor.extract_signature env fields)
              = hmacSha256Hex (utf8Encode (pyStrip isWs (env.webhookSecret.getD [])))
                  (utf8Encode raw))))
    ∧ Cursor.validate_signature
        ⟨some "sha256=5fc98a63937bb7ec3112bc62ff80417dbf4fa4e1e0507a44fcc8329e69f21cb8".data,
         none, some "testsecret".data⟩ "payload-bytes-v1".data [] = true
    ∧ Cursor.validate_signature
        ⟨some "sha256=5fc98a63937bb7ec3112bc62ff80417dbf4fa4e1e0507a44fcc8329e69f21cb9".data,
         none, some "testsecret".data⟩ "payload-bytes-v1".data [] = false
    ∧ Cursor.validate_signature
        ⟨some "sha256=5fc98a63937bb7ec3112bc62ff80417dbf4fa4e1e0507a44fcc8329e69f21cb8".data,
         none, some "testsecret".data⟩ "payload-bytes-v2".data [] = false
    ∧ Cursor.validate_signature ⟨none, none, some "testsecret".data⟩
        "payload-bytes-v1".data [] = false
    ∧ Cursor.validate_signature ⟨none, none, none⟩ "payload-bytes-v1".data [] = true := by
  refine ⟨?_, ?_, by decide, by decide, by decide, by decide, by decide⟩
  · intro env raw fields h
    rw [validate_signature_eq, h]
    rfl
  · intro env raw fields h
    have hne : (pyStrip isWs (env.webhookSecret.getD [])).isEmpty = false := by
      rw [← Bool.not_eq_true, List.isEmpty_iff]
      exact h
    rw [validate_signature_eq, if_neg (by simp [hne])]
    by_cases hsig : (Cursor.extract_signature env fields).isEmpty = true
    · rw [if_pos hsig]
      simp [List.isEmpty_iff.mp hsig]
    · rw [if_neg hsig]
      have hne2 : Cursor.extract_signature env fields ≠ [] :=
        fun hnil => hsig (List.isEmpty_iff.mpr hnil)
      simp [beq_iff_eq, hne2]

theorem c4_signature_verification_witness :
    Cursor.validate_signature ⟨none, none, none⟩ "x".data [] = true :=
  (c4_signature_verification).1 ⟨none, none, none⟩ "x".data [] rfl

/-! ## Hook exit codes -/

theorem log_turn_zero (showRc recordRc : Int) : log_turn showRc recordRc = 0 := by
  unfold log_turn
  split
  · rfl
  · split
    · rfl
    · rfl

/-- C5: every hook adapter entry point returns exit code zero on every
input: invalid or empty JSON, a non-dictionary root, an irrelevant event
kind, a rejected signature, a failing show-vault probe (no vault binding)
and a failing record-run subprocess all end in a logged skip with exit
code zero, as does the success path. -/
theorem c5_hooks_always_exit_zero :
    (∀ (parsed : Option Json) (showRc recordRc : Int),
        Codex.main parsed showRc recordRc = 0)
    ∧ (∀ (parsed : Option Json) (showRc recordRc : Int),
        ClaudeSchema.main parsed showRc recordRc = 0)
    ∧ (∀ (env : Cursor.Env) (raw : Str) (parsed : Option Json) (showRc recordRc : Int),
        Cursor.main env raw parsed showRc recordRc = 0)
    ∧ (∀ (parsed : Option Json) (showRc recordRc : Int),
        Antigravity.main parsed showRc recordRc = 0)
    ∧ (∀ (showRc recordRc : Int), log_turn showRc recordRc = 0) := by
  refine ⟨?_, ?_, ?_, ?_, log_turn_zero⟩
  · intro parsed showRc recordRc
    cases parsed with
    | none => rfl
    | some p => cases p <;> simp [Codex.main, log_turn_zero]
  · intro parsed showRc recordRc
    cases parsed with
    | none => rfl
    | some p => cases p <;> simp [ClaudeSchema.main, log_turn_zero]
  · intro env raw parsed showRc recordRc
    cases parsed with
    | none => rfl
    | some p => cases p <;> simp [Cursor.main, log_turn_zero]
  · intro parsed showRc recordRc
    cases parsed with
    | none => rfl
    | some p => cases p <;> simp [Antigravity.main, log_turn_zero]

/-! ## Atomicity of state writes -/

/-- C7 counterexample: the claim that every state write is atomic (every
content observable during ConfigStore.save equals either the old or the
new serialized document) is false: save opens the state file in write
mode, which truncates it before the new document is streamed in, so the
empty and partially written contents are observable. -/
theorem c7_counterexample_nonatomic_save :
    ¬ (∀ s ∈ ConfigStore.saveObservableContents "ab".data "cd".data,
        s = "ab".data ∨ s = "cd".data) := by
  decide

/-- C7 amended: ConfigStore.save writes the state file in place by
truncating and then streaming the serialized document, so the truncated
(empty) content and every written chunk are observable mid-call; whenever
the old and new contents are nonempty an interrupted call can leave the
file holding neither, though a completed call does leave the new
document. -/
theorem c7_save_truncate_then_write (old new : Str) (hold : old ≠ []) (hnew : new ≠ []) :
    [] ∈ ConfigStore.saveObservableContents old new
    ∧ (∃ s ∈ ConfigStore.saveObservableContents old new, s ≠ old ∧ s ≠ new)
    ∧ new ∈ ConfigStore.saveObservableContents old new
    ∧ (ConfigStore.saveObservableContents old new).head? = some old := by
  have hmem0 : [] ∈ ConfigStore.saveObservableContents old new := by
    unfold ConfigStore.saveObservableContents
    refine List.mem_cons_of_mem old (List.mem_map.mpr ⟨0, ?_, rfl⟩)
    simp
  refine ⟨hmem0, ⟨[], hmem0, fun h => hold h.symm, fun h => hnew h.symm⟩, ?_, rfl⟩
  unfold ConfigStore.saveObservableContents
  refine List.mem_cons_of_mem old (List.mem_map.mpr ⟨new.length, ?_, List.take_length new⟩)
  simp

theorem c7_save_truncate_then_write_witness :
    [] ∈ ConfigStore.saveObservableContents "ab".data "cd".data
    ∧ (∃ s ∈ ConfigStore.saveObservableContents "ab".data "cd".data,
        s ≠ "ab".data ∧ s ≠ "cd".data)
    ∧ "cd".data ∈ ConfigStore.saveObservableContents "ab".data "cd".data
    ∧ (ConfigStore.saveObservableContents "ab".data "cd".data).head? = some "ab".data :=
  c7_save_truncate_then_write "ab".data "cd".data (by decide) (by decide)

/-! ## Load normalization -/

theorem objGet_objSet_ne (m : List (Str × Json)) (k k' : Str) (v : Json) (hne : k ≠ k') :
    objGet (objSet m k v) k' = objGet m k' := by
  induction m with
  | nil => simp [objSet, objGet, hne]
  | cons hd tl ih =>
    obtain ⟨q, w⟩ := hd
    by_cases hq : q = k
    · subst hq
      simp [objSet, objGet, hne]
    · simp [objSet, objGet, hq, ih]

theorem load_obj_eq (fs : List (Str × Json)) :
    ConfigStore.load (some (.obj fs)) =
      (let f1 := match objGet fs "workspace_vaults".data with
                 | some (.obj _) => fs
                 | _ => objSet fs "workspace_vaults".data (.obj [])
       let f2 := match objGet f1 "default_vault_path".data with
                 | some _ => f1
                 | none => objSet f1 "default_vault_path".data (.str [])
       .ok (.obj f2)) := rfl

theorem resolve_vault_some_eq_of_load (disk : Disk) (fields : List (Str × Json))
    (hload : ConfigStore.load disk = .ok (.obj fields)) (w : FsPath) :
    ConfigStore.resolve_vault disk (some w) =
      (match ConfigStore.firstBound
          (match objGet fields "workspace_vaults".data with
           | some (.obj m) => m | _ => [])
          (ancestorChain w) with
       | some v => .ok v
       | none => .ok (.str (pyStr ((objGet fields "default_vault_path".data).getD (.str []))))) := by
  unfold ConfigStore.resolve_vault
  rw [hload]
  rfl

theorem resolve_vault_none_eq_of_load (disk : Disk) (fields : List (Str × Json))
    (hload : ConfigStore.load disk = .ok (.obj fields)) :
    ConfigStore.resolve_vault disk none
      = .ok (.str (pyStr ((objGet fields "default_vault_path".data).getD (.str [])))) := by
  unfold ConfigStore.resolve_vault
  rw [hload]
  rfl

/-- C10: load always returns a well-formed state object: for an absent
file or any JSON object on disk (including one whose workspace_vaults is
missing or not a mapping, or whose default_vault_path is missing), the
result is an object whose workspace_vaults key holds a mapping and whose
default_vault_path key is present, and resolve_vault and set_vault
therefore succeed on every such state document. -/
theorem c10_load_normalizes (disk : Disk)
    (hshape : disk = none ∨ ∃ fs, disk = some (.obj fs)) :
    (∃ fields, ConfigStore.load disk = .ok (.obj fields)
      ∧ (∃ m, objGet fields "workspace_vaults".data = some (.obj m))
      ∧ (∃ v, objGet fields "default_vault_path".data = some v))
    ∧ (∀ ws, ∃ r, ConfigStore.resolve_vault disk ws = .ok r)
    ∧ (∀ vault wsp, ∃ d, ConfigStore.set_vault disk vault wsp = .ok d) := by
  have hne : "default_vault_path".data ≠ "workspace_vaults".data := by decide
  have hmain : ∃ fields, ConfigStore.load disk = .ok (.obj fields)
      ∧ (∃ m, objGet fields "workspace_vaults".data = some (.obj m))
      ∧ (∃ v, objGet fields "default_vault_path".data = some v) := by
    rcases hshape with h | ⟨fs, h⟩
    · subst h
      exact ⟨_, rfl, ⟨[], rfl⟩, ⟨.str [], rfl⟩⟩
    · subst h
      have cont : ∀ f1 : List (Str × Json),
          (∃ m, objGet f1 "workspace_vaults".data = some (.obj m)) →
          ConfigStore.load (some (.obj fs)) =
            (let f2 := match objGet f1 "default_vault_path".data with
                       | some _ => f1
                       | none => objSet f1 "default_vault_path".data (.str [])
             .ok (.obj f2)) →
          ∃ fields, ConfigStore.load (some (.obj fs)) = .ok (.obj fields)
            ∧ (∃ m, objGet fields "workspace_vaults".data = some (.obj m))
            ∧ (∃ v, objGet fields "default_vault_path".data = some v) := by
        intro f1 hwvobj hload
        rcases hdvp : objGet f1 "default_vault_path".data with _ | v2
        · rw [hdvp] at hload
          refine ⟨_, hload, ?_, ⟨.str [], objGet_objSet_self _ _ _⟩⟩
          obtain ⟨m, hm⟩ := hwvobj
          exact ⟨m, by rw [objGet_objSet_ne _ _ _ _ hne]; exact hm⟩
        · rw [hdvp] at hload
          exact ⟨f1, hload, hwvobj, ⟨v2, hdvp⟩⟩
      rcases hwv : objGet fs "workspace_vaults".data with _ | v
      · exact cont (objSet fs "workspace_vaults".data (.obj []))
          ⟨[], objGet_objSet_self _ _ _⟩ (by rw [load_obj_eq, hwv])
      · cases v with
        | obj m => exact cont fs ⟨m, hwv⟩ (by rw [load_obj_eq, hwv])
        | null =>
          exact cont (objSet fs "workspace_vaults".data (.obj []))
            ⟨[], objGet_objSet_self _ _ _⟩ (by rw [load_obj_eq, hwv])
        | bool b =>
          exact cont (objSet fs "workspace_vaults".data (.obj []))
            ⟨[], objGet_objSet_self _ _ _⟩ (by rw [load_obj_eq, hwv])
        | num n =>
          exact cont (objSet fs "workspace_vaults".data (.obj []))
            ⟨[], objGet_objSet_self _ _ _⟩ (by rw [load_obj_eq, hwv])
        | str s =>
          exact cont (objSet fs "workspace_vaults".data (.obj []))
            ⟨[], objGet_objSet_self _ _ _⟩ (by rw [load_obj_eq, hwv])
        | arr xs =>
          exact cont (objSet fs "workspace_vaults".data (.obj []))
            ⟨[], objGet_objSet_self _ _ _⟩ (by rw [load_obj_eq, hwv])
  obtain ⟨fields, hload, hwvobj, hdvp⟩ := hmain
  refine ⟨⟨fields, hload, hwvobj, hdvp⟩, ?_, ?_⟩
  · intro ws
    cases ws with
    | none => exact ⟨_, resolve_vault_none_eq_of_load disk fields hload⟩
    | some w =>
      cases hfb : ConfigStore.firstBound
          (match objGet fields "workspace_vaults".data with
           | some (.obj m) => m | _ => []) (ancestorChain w) with
      | none => exact ⟨_, by rw [resolve_vault_some_eq_of_load disk fields hload w, hfb]⟩
      | some v => exact ⟨v, by rw [resolve_vault_some_eq_of_load disk fields hload w, hfb]⟩
  · intro vault wsp
    exact ⟨_, by unfold ConfigStore.set_vault; rw [hload]; rfl⟩

theorem c10_load_normalizes_witness :
    (∃ fields, ConfigStore.load (some (.obj [("workspace_vaults".data, .num 7)]))
        = .ok (.obj fields)
      ∧ (∃ m, objGet fields "workspace_vaults".data = some (.obj m))
      ∧ (∃ v, objGet fields "default_vault_path".data = some v))
    ∧ (∀ ws, ∃ r, ConfigStore.resolve_vault
        (some (.obj [("workspace_vaults".data, .num 7)])) ws = .ok r)
    ∧ (∀ vault wsp, ∃ d, ConfigStore.set_vault
        (some (.obj [("workspace_vaults".data, .num 7)])) vault wsp = .ok d) :=
  c10_load_normalizes (some (.obj [("workspace_vaults".data, .num 7)]))
    (.inr ⟨[("workspace_vaults".data, .num 7)], rfl⟩)

/-! ## Validation of the hash model against standard test vectors -/

set_option maxRecDepth 40000 in
theorem sha256_model_fips_vector :
    bytesToHex (sha256 (utf8Encode "abc".data))
      = "ba7816bf8f01cfea414140de5dae2223b00361a396177a9cb410ff61f20015ad".data := by
  decide

set_option maxRecDepth 80000 in
theorem hmac_model_rfc4231_vector :
    hmacSha256Hex (utf8Encode "Jefe".data) (utf8Encode "what do ya want for nothing?".data)
      = "5bdcc146bf60754e6a042426089575c75a003f089d2739839dec58b964ec3843".data := by
  decide
